import Mathlib

/-!
# Managed user data bridge (`on_userdata.cpp`)

A shallow embedding of `src/c/on_userdata.cpp`: the native stand-in
`CRhCmnUserData` for a managed user-data instance, the table of six host
callbacks, the class-id list `g_classIds`, and the holder list
`m_all_holders` used to park an object's user data.

Conventions of the embedding

* a pointer is an `Option` (`none` is `NULL`);
* `ON_UUID` is a natural number, the nil id is `0`; ids are only compared;
* `int` is `Int`; serial numbers are only compared with `1`;
* a host callback is a function giving the value it returns; every function
  of the file calls each callback at most once, and the calls made are
  recorded, in order, as a list of `Call`;
* global state (`g_classIds.m_class_ids`, `m_all_holders`, the callback
  slots) is passed in and the new state is returned;
* a function that can write an object returns, next to its C++ result, that
  object as it is afterwards (`ClassId` is `const` and still writes
  `m_pClassId`); `CopyRhCmnUserData` takes its two pointers to point to two
  different objects, `CopyRhCmnUserData_at` is the same function on two
  addresses of a store of objects, which may be one and the same address.
-/

namespace RhCmn

/-! ## Data model -/

/-- The 128 bit identifier `ON_UUID`; only equality is used. -/
abbrev ON_UUID := Nat

/-- The nil identifier `ON_nil_uuid`. -/
def ON_nil_uuid : ON_UUID := 0

/-- The test `ON_UuidIsNotNil(id)`. -/
def ON_UuidIsNotNil (id : ON_UUID) : Bool := id != ON_nil_uuid

/-- The transformation `ON_Xform`, passed through to the host untouched. -/
structure ON_Xform where
  token : Nat
deriving DecidableEq, Repr

/-- The archive `ON_BinaryArchive`, passed through to the host untouched. -/
structure ON_BinaryArchive where
  token : Nat
deriving DecidableEq, Repr

/-- The base record `ON_ClassId`: what `ON_ClassId( class_name, baseclass_name,
create, copy, sUUID )` stores. `m_uuid` is what `Uuid()` returns: the id that
the string `sUUID` spells. -/
structure ON_ClassId where
  m_class_name : String
  m_baseclass_name : String
  m_uuid : ON_UUID
deriving DecidableEq, Repr

/-- The accessor `ON_ClassId::Uuid()`. -/
def ON_ClassId.Uuid (c : ON_ClassId) : ON_UUID := c.m_uuid

/-- The class `CRhCmnClassId : public ON_ClassId`. -/
structure CRhCmnClassId extends ON_ClassId where
  m_managed_object_type : ON_UUID
deriving DecidableEq, Repr

/-- The constructor `CRhCmnClassId::CRhCmnClassId`; every caller in the file
passes as `sUUID` the string form (`ON_UuidToString`) of `mgd_object_type`, so
the base record is built with that id. -/
def CRhCmnClassId.new (mgd_object_type : ON_UUID) (class_name baseclass_name : String) :
    CRhCmnClassId :=
  { m_class_name := class_name
    m_baseclass_name := baseclass_name
    m_uuid := mgd_object_type
    m_managed_object_type := mgd_object_type }

/-- The class `CRhCmnUserData : public ON_UserData`, with the members of
`ON_UserData` that the file reads or writes. -/
structure CRhCmnUserData where
  m_serial_number : Int
  m_userdata_uuid : ON_UUID
  m_application_uuid : ON_UUID
  m_description : String
  m_pClassId : Option ON_ClassId
  m_userdata_copycount : Nat
deriving DecidableEq, Repr

/-- The accessor `ManagedTypeId()`. -/
def CRhCmnUserData.ManagedTypeId (self : CRhCmnUserData) : ON_UUID := self.m_userdata_uuid

/-- The accessor `PlugInId()`. -/
def CRhCmnUserData.PlugInId (self : CRhCmnUserData) : ON_UUID := self.m_application_uuid

/-- The constructor `CRhCmnUserData::CRhCmnUserData`. -/
def CRhCmnUserData.new (serial_number : Int) (managed_type_id plugin_id : ON_UUID)
    (description : String) : CRhCmnUserData :=
  { m_description := description
    m_serial_number := serial_number
    m_userdata_uuid := managed_type_id
    m_application_uuid := plugin_id
    m_pClassId := none
    m_userdata_copycount := 1 }

/-- One item of an object's user-data list: a `CRhCmnUserData`, or user data
of some other class, of which only its `m_userdata_uuid` is of interest. -/
inductive ON_UserData where
  | rhCmn (ud : CRhCmnUserData)
  | foreign (m_userdata_uuid : ON_UUID)
deriving DecidableEq, Repr

/-- The member `m_userdata_uuid` of a user-data item. -/
def ON_UserData.m_userdata_uuid : ON_UserData → ON_UUID
  | ON_UserData.rhCmn ud => ud.m_userdata_uuid
  | ON_UserData.foreign id => id

/-- An `ON_Object` as this file can see it: what
`dynamic_cast<CRhCmnUserData*>` makes of it, and its list of user data. -/
structure ON_Object where
  asRhCmnUserData : Option CRhCmnUserData
  m_userdata_list : List ON_UserData
deriving DecidableEq, Repr

/-- The cast `dynamic_cast<CRhCmnUserData*>(p)` of an object pointer. -/
def dynamic_cast (p : Option ON_Object) : Option CRhCmnUserData :=
  match p with
  | none => none
  | some o => o.asRhCmnUserData

/-- The six static callback slots of `CRhCmnUserData`; `none` is `NULL`. -/
structure Callbacks where
  m_transform : Option (Int → ON_Xform → Unit)
  m_archive : Option (Int → Int)
  m_readwrite : Option (Int → Int → ON_BinaryArchive → Int)
  m_duplicate : Option (Int → CRhCmnUserData → Int)
  m_create : Option (ON_UUID → Option ON_UserData)
  m_delete : Option (Int → Unit)

/-- A call made to the host through one of the six slots, with its arguments. -/
inductive Call where
  | transform (serial_number : Int) (xform : ON_Xform)
  | archive (serial_number : Int)
  | readwrite (serial_number : Int) (writing : Int) (binary_archive : ON_BinaryArchive)
  | duplicate (serial_number : Int) (pUserData : CRhCmnUserData)
  | create (id : ON_UUID)
  | delete (serial_number : Int)
deriving DecidableEq, Repr

/-- The function `CRhCmnUserData_SetCallbacks`: all six slots are replaced. -/
def CRhCmnUserData_SetCallbacks
    (xform_proc : Option (Int → ON_Xform → Unit))
    (archive_proc : Option (Int → Int))
    (io_proc : Option (Int → Int → ON_BinaryArchive → Int))
    (duplicate_proc : Option (Int → CRhCmnUserData → Int))
    (create_proc : Option (ON_UUID → Option ON_UserData))
    (delete_proc : Option (Int → Unit)) : Callbacks :=
  { m_transform := xform_proc
    m_archive := archive_proc
    m_readwrite := io_proc
    m_duplicate := duplicate_proc
    m_create := create_proc
    m_delete := delete_proc }

/-! ## Proxy operations -/

/-- The destructor `CRhCmnUserData::~CRhCmnUserData`: the calls it makes. -/
def CRhCmnUserData.destructor (cb : Callbacks) (self : CRhCmnUserData) : List Call :=
  match cb.m_delete with
  | some _ => [Call.delete self.m_serial_number]
  | none => []

/-- The member `CRhCmnUserData::GetDescription( description )`: the text
written to `description`; the call returns `TRUE`. -/
def CRhCmnUserData.GetDescription (self : CRhCmnUserData) : Bool × String :=
  (true, self.m_description)

/-- Outcome of a forwarding member with a `BOOL` result: the result as a
truth value, and the calls made. -/
structure ForwardResult where
  result : Bool
  calls : List Call
deriving DecidableEq, Repr

/-- Outcome of `Transform`: the `BOOL` returned as a truth value, the object
it was called on afterwards, and the calls made. -/
structure TransformResult where
  result : Bool
  self : CRhCmnUserData
  calls : List Call
deriving DecidableEq, Repr

/-- The member `CRhCmnUserData::Transform( xform )`. -/
def CRhCmnUserData.Transform (cb : Callbacks) (self : CRhCmnUserData) (xform : ON_Xform) :
    TransformResult :=
  match cb.m_transform with
  | some _ =>
      { result := true, self := self, calls := [Call.transform self.m_serial_number xform] }
  | none => { result := true, self := self, calls := [] }

/-- The member `CRhCmnUserData::Archive() const`. -/
def CRhCmnUserData.Archive (cb : Callbacks) (self : CRhCmnUserData) : ForwardResult :=
  match cb.m_archive, cb.m_readwrite with
  | some archive, some _ =>
      let rc := archive self.m_serial_number
      { result := if rc > 0 then true else false
        calls := [Call.archive self.m_serial_number] }
  | _, _ => { result := false, calls := [] }

/-- Outcome of `Write` and `Read`: the `BOOL` (an `int`) returned, `0` being
`FALSE`, and the calls made. -/
structure ReadWriteResult where
  result : Int
  calls : List Call
deriving DecidableEq, Repr

/-- The member `CRhCmnUserData::Write( binary_archive ) const`. -/
def CRhCmnUserData.Write (cb : Callbacks) (self : CRhCmnUserData)
    (binary_archive : ON_BinaryArchive) : ReadWriteResult :=
  match cb.m_readwrite with
  | some readwrite =>
      { result := readwrite self.m_serial_number 1 binary_archive
        calls := [Call.readwrite self.m_serial_number 1 binary_archive] }
  | none => { result := 0, calls := [] }

/-- The member `CRhCmnUserData::Read( binary_archive )`. -/
def CRhCmnUserData.Read (cb : Callbacks) (self : CRhCmnUserData)
    (binary_archive : ON_BinaryArchive) : ReadWriteResult :=
  match cb.m_readwrite with
  | some readwrite =>
      { result := readwrite self.m_serial_number 0 binary_archive
        calls := [Call.readwrite self.m_serial_number 0 binary_archive] }
  | none => { result := 0, calls := [] }

/-- Outcome of `CopyRhCmnUserData`: the returned flag, the objects behind `src`
and `dst` afterwards, and the calls made. -/
structure CopyResult where
  result : Bool
  src : Option ON_Object
  dst : Option ON_Object
  calls : List Call
deriving DecidableEq, Repr

/-- The static function `CopyRhCmnUserData( src, dst )`, for `src` and `dst`
that point to two objects (not to one and the same): the only write goes
through `d`, so the object behind `src` is handed back as it came. -/
def CopyRhCmnUserData (cb : Callbacks) (src dst : Option ON_Object) : CopyResult :=
  match dst, dynamic_cast dst, dynamic_cast src with
  | some o, some d, some s =>
      if d.PlugInId != s.PlugInId then
        { result := false, src := src, dst := dst, calls := [] }
      else if d.ManagedTypeId != s.ManagedTypeId then
        { result := false, src := src, dst := dst, calls := [] }
      else
        match decide (d.m_serial_number < 1), cb.m_duplicate with
        | true, some duplicate =>
            let serial_number := duplicate s.m_serial_number d
            { result := true
              src := src
              dst := some { o with asRhCmnUserData := some { d with m_serial_number := serial_number } }
              calls := [Call.duplicate s.m_serial_number d] }
        | _, _ => { result := true, src := src, dst := dst, calls := [] }
  | _, _, _ => { result := false, src := src, dst := dst, calls := [] }

/-- What a pointer points to in a store of objects, given by address: nothing
for the null pointer. -/
def deref (store : Nat → Option ON_Object) (p : Option Nat) : Option ON_Object :=
  match p with
  | none => none
  | some a => store a

/-- Outcome of `CopyRhCmnUserData` on a store of objects: the returned flag,
the store afterwards, and the calls made. -/
structure CopyAtResult where
  result : Bool
  store : Nat → Option ON_Object
  calls : List Call

/-- The static function `CopyRhCmnUserData( src, dst )` with `src` and `dst` as
addresses in a store of objects (`none` is the null pointer), so that the
two may point to one and the same object: the write
`d->m_serial_number = serial_number` changes the object at the address `dst`,
and with it what `src` points to when the two addresses are equal. -/
def CopyRhCmnUserData_at (cb : Callbacks) (store : Nat → Option ON_Object)
    (src dst : Option Nat) : CopyAtResult :=
  match dst, dynamic_cast (deref store dst), dynamic_cast (deref store src) with
  | some a, some d, some s =>
      if d.PlugInId != s.PlugInId then
        { result := false, store := store, calls := [] }
      else if d.ManagedTypeId != s.ManagedTypeId then
        { result := false, store := store, calls := [] }
      else
        match decide (d.m_serial_number < 1), cb.m_duplicate with
        | true, some duplicate =>
            let serial_number := duplicate s.m_serial_number d
            { result := true
              store := fun x =>
                if x = a then
                  (store a).map (fun o =>
                    { o with asRhCmnUserData := some { d with m_serial_number := serial_number } })
                else store x
              calls := [Call.duplicate s.m_serial_number d] }
        | _, _ => { result := true, store := store, calls := [] }
  | _, _, _ => { result := false, store := store, calls := [] }

/-- Outcome of `DuplicateObject`: the returned pointer, the object it was
called on afterwards, and the calls made. -/
structure DuplicateResult where
  result : Option CRhCmnUserData
  self : CRhCmnUserData
  calls : List Call
deriving DecidableEq, Repr

/-- The member `CRhCmnUserData::DuplicateObject() const`. -/
def CRhCmnUserData.DuplicateObject (cb : Callbacks) (self : CRhCmnUserData) :
    DuplicateResult :=
  match cb.m_duplicate with
  | none => { result := none, self := self, calls := [] }
  | some duplicate =>
      let managed_type_id := self.ManagedTypeId
      let plugin_id := self.PlugInId
      let pNative := CRhCmnUserData.new (-1) managed_type_id plugin_id self.m_description
      let serial_number := duplicate self.m_serial_number pNative
      if serial_number < 1 then
        { result := none
          self := self
          calls := Call.duplicate self.m_serial_number pNative :: pNative.destructor cb }
      else
        { result := some { pNative with m_serial_number := serial_number }
          self := self
          calls := [Call.duplicate self.m_serial_number pNative] }

/-! ## The class-id list `g_classIds` -/

/-- The class `CRhCmnClassIdList`: an array of pointers to `CRhCmnClassId`. -/
structure CRhCmnClassIdList where
  m_class_ids : List (Option CRhCmnClassId)
deriving DecidableEq, Repr

/-- The loop of `CRhCmnClassIdList::GetClassId` over the entries not yet
visited: the first non-null entry whose `Uuid()` is `id`. -/
def GetClassId_loop (id : ON_UUID) : List (Option CRhCmnClassId) → Option CRhCmnClassId
  | [] => none
  | pClassId :: rest =>
      match pClassId with
      | some c => if c.Uuid == id then some c else GetClassId_loop id rest
      | none => GetClassId_loop id rest

/-- The member `CRhCmnClassIdList::GetClassId( id )`. -/
def CRhCmnClassIdList.GetClassId (self : CRhCmnClassIdList) (id : ON_UUID) :
    Option CRhCmnClassId :=
  GetClassId_loop id self.m_class_ids

/-- The function `ON_UserData_RegisterCustomUserData`; `managed_type_name` is
the string `class_name` the coercion of the argument yields. -/
def ON_UserData_RegisterCustomUserData (g_classIds : CRhCmnClassIdList)
    (managed_type_name : String) (managed_type_id : ON_UUID) : CRhCmnClassIdList :=
  let class_name := managed_type_name
  if class_name.length < 1 || (g_classIds.GetClassId managed_type_id).isSome then
    g_classIds
  else
    let pClassId := CRhCmnClassId.new managed_type_id class_name "ON_UserData"
    { m_class_ids := g_classIds.m_class_ids ++ [some pClassId] }

/-- The search loop of `CRhCmnUserData::ClassId` over the entries not yet
visited: the first non-null entry whose `Uuid()` is `m_userdata_uuid`, as
the `ON_ClassId*` that the loop stores in `m_pClassId`. -/
def ClassId_loop (m_userdata_uuid : ON_UUID) : List (Option CRhCmnClassId) → Option ON_ClassId
  | [] => none
  | pCid :: rest =>
      match pCid with
      | some c =>
          if c.Uuid == m_userdata_uuid then some c.toON_ClassId
          else ClassId_loop m_userdata_uuid rest
      | none => ClassId_loop m_userdata_uuid rest

/-- Outcome of `ClassId`: the returned record, the object it was called on
afterwards (its `m_pClassId` may have been set), and `g_classIds` afterwards. -/
structure ClassIdResult where
  result : ON_ClassId
  self : CRhCmnUserData
  g_classIds : CRhCmnClassIdList
deriving DecidableEq, Repr

/-- The member `CRhCmnUserData::ClassId() const`. The record that
`__super::ClassId()` returns, the class id of `ON_UserData` itself, is not
declared in this file and is the parameter `super_ClassId`. -/
def CRhCmnUserData.ClassId (super_ClassId : ON_ClassId) (g_classIds : CRhCmnClassIdList)
    (self : CRhCmnUserData) : ClassIdResult :=
  match self.m_pClassId with
  | some c => { result := c, self := self, g_classIds := g_classIds }
  | none =>
      let found := ClassId_loop self.m_userdata_uuid g_classIds.m_class_ids
      match found with
      | some c =>
          { result := c, self := { self with m_pClassId := some c }, g_classIds := g_classIds }
      | none =>
          if ON_UuidIsNotNil self.m_userdata_uuid then
            let managed_type_id := self.ManagedTypeId
            let pNewClassId := CRhCmnClassId.new managed_type_id "CRhCmnUserData" "ON_UserData"
            { result := pNewClassId.toON_ClassId
              self := { self with m_pClassId := some pNewClassId.toON_ClassId }
              g_classIds := { m_class_ids := g_classIds.m_class_ids ++ [some pNewClassId] } }
          else
            { result := super_ClassId, self := self, g_classIds := g_classIds }

/-- Modelled from the spec: the base-class identity that `ClassId` falls back
to for a nil type id. It is the class id of `ON_UserData`, declared in the
opennurbs library, not in this file: class name `ON_UserData`, base class
`ON_Object`, id `850324A7-050E-11d4-BFFA-0010830122F0`. -/
def ON_UserData_class_id : ON_ClassId :=
  { m_class_name := "ON_UserData"
    m_baseclass_name := "ON_Object"
    m_uuid := 0x850324A7050E11D4BFFA0010830122F0 }

/-! ## Exported entry points for a proxy -/

/-- The function `RhCmnClassIdCreateOnObject`, with the id that
`ON_GetMostRecentClassIdCreateUuid()` yields as an argument: the object made
and the calls made. -/
def RhCmnClassIdCreateOnObject (cb : Callbacks) (g_classIds : CRhCmnClassIdList)
    (managed_type_id : ON_UUID) : Option ON_UserData × List Call :=
  match g_classIds.GetClassId managed_type_id, cb.m_create with
  | some pClassId, some create =>
      (create pClassId.m_managed_object_type, [Call.create pClassId.m_managed_object_type])
  | _, _ => (none, [])

/-- The function `CRhCmnUserData_New`. -/
def CRhCmnUserData_New (serial_number : Int) (managed_type_id plugin_id : ON_UUID)
    (description : String) : CRhCmnUserData :=
  CRhCmnUserData.new serial_number managed_type_id plugin_id description

/-- The function `CRhCmnUserData_Delete( pUserData, serial_number )`: the calls
made; the second argument is not used. -/
def CRhCmnUserData_Delete (cb : Callbacks) (pUserData : Option CRhCmnUserData)
    (_serial_number : Int) : List Call :=
  match pUserData with
  | some ud => ud.destructor cb
  | none => []

/-- Modelled from the spec: the opennurbs member `ON_Object::GetUserData( id )`,
not in this file: the attached user-data item of the given id, if any. -/
def ON_Object.GetUserData (self : ON_Object) (userdata_uuid : ON_UUID) : Option ON_UserData :=
  self.m_userdata_list.find? (fun ud => ud.m_userdata_uuid == userdata_uuid)

/-- The function `CRhCmnUserData_Find( pConstOnObject, managed_type_id )`. -/
def CRhCmnUserData_Find (pConstOnObject : Option ON_Object) (managed_type_id : ON_UUID) : Int :=
  match pConstOnObject with
  | none => -1
  | some obj =>
      match obj.GetUserData managed_type_id with
      | some (ON_UserData.rhCmn pRhCmnUd) => pRhCmnUd.m_serial_number
      | _ => -1

/-! ## The holder list `m_all_holders` -/

/-- The class `ON_UserDataHolder`: an object that only carries user data. -/
structure ON_UserDataHolder where
  m_userdata_list : List ON_UserData
deriving DecidableEq, Repr

/-- Outcome of `ON_UserDataHolder::MoveUserDataFrom`. -/
structure HolderMoveFromResult where
  result : Bool
  holder : ON_UserDataHolder
  source_object : ON_Object
deriving DecidableEq, Repr

/-- Modelled from the spec: the opennurbs member
`ON_UserDataHolder::MoveUserDataFrom( source_object )`, not in this file. All
user-data items are moved off the object into the holder; the result tells
whether the holder now has user data. -/
def ON_UserDataHolder.MoveUserDataFrom (_self : ON_UserDataHolder) (source_object : ON_Object) :
    HolderMoveFromResult :=
  { result := !source_object.m_userdata_list.isEmpty
    holder := { m_userdata_list := source_object.m_userdata_list }
    source_object := { source_object with m_userdata_list := [] } }

/-- Outcome of `ON_UserDataHolder::MoveUserDataTo`. -/
structure HolderMoveToResult where
  holder : ON_UserDataHolder
  object : ON_Object
deriving DecidableEq, Repr

/-- Modelled from the spec: the opennurbs member
`ON_UserDataHolder::MoveUserDataTo( object, append )`, not in this file. The
held user data is moved back onto the object: with `append` it is added
alongside the data already on the object, without it replaces that data. -/
def ON_UserDataHolder.MoveUserDataTo (self : ON_UserDataHolder) (object : ON_Object)
    (append : Bool) : HolderMoveToResult :=
  { holder := { m_userdata_list := [] }
    object :=
      { object with
        m_userdata_list :=
          if append then object.m_userdata_list ++ self.m_userdata_list
          else self.m_userdata_list } }

/-- The struct `CUserDataHolderPiece`. -/
structure CUserDataHolderPiece where
  m_pHolder : Option ON_UserDataHolder
  m_id : ON_UUID
deriving DecidableEq, Repr

/-- Outcome of `ON_UserDataHolder_MoveUserDataFrom`: the returned flag,
`m_all_holders` afterwards, and the object behind the pointer afterwards. -/
structure MoveUserDataFromResult where
  result : Bool
  m_all_holders : List CUserDataHolderPiece
  object : Option ON_Object
deriving DecidableEq, Repr

/-- The function `ON_UserDataHolder_MoveUserDataFrom( id, pConstObject )`. -/
def ON_UserDataHolder_MoveUserDataFrom (m_all_holders : List CUserDataHolderPiece)
    (id : ON_UUID) (pConstObject : Option ON_Object) : MoveUserDataFromResult :=
  match pConstObject with
  | none => { result := false, m_all_holders := m_all_holders, object := pConstObject }
  | some obj =>
      if ON_UuidIsNotNil id && !obj.m_userdata_list.isEmpty then
        if m_all_holders.any (fun piece => piece.m_id == id) then
          { result := false, m_all_holders := m_all_holders, object := pConstObject }
        else
          let pHolder : ON_UserDataHolder := { m_userdata_list := [] }
          let moved := pHolder.MoveUserDataFrom obj
          if !moved.result then
            { result := false, m_all_holders := m_all_holders, object := some moved.source_object }
          else
            let piece : CUserDataHolderPiece := { m_id := id, m_pHolder := some moved.holder }
            { result := true
              m_all_holders := m_all_holders ++ [piece]
              object := some moved.source_object }
      else
        { result := false, m_all_holders := m_all_holders, object := pConstObject }

/-- Outcome of `ON_UserDataHolder_MoveUserDataTo`: `m_all_holders` and the
object afterwards. -/
structure MoveUserDataToResult where
  m_all_holders : List CUserDataHolderPiece
  object : ON_Object
deriving DecidableEq, Repr

/-- The loop of `ON_UserDataHolder_MoveUserDataTo` from index `i` on: a piece
with the id is taken out with `Remove(i)`, its holder (when not null) moves
its user data to the object, and the loop goes on at `i+1`. -/
def MoveUserDataTo_loop (id : ON_UUID) (append : Bool) (i : Nat)
    (m_all_holders : List CUserDataHolderPiece) (object : ON_Object) : MoveUserDataToResult :=
  if h : i < m_all_holders.length then
    if (m_all_holders.get ⟨i, h⟩).m_id == id then
      let pHolder := (m_all_holders.get ⟨i, h⟩).m_pHolder
      let removed := m_all_holders.eraseIdx i
      match pHolder with
      | some holder =>
          MoveUserDataTo_loop id append (i + 1) removed (holder.MoveUserDataTo object append).object
      | none => MoveUserDataTo_loop id append (i + 1) removed object
    else
      MoveUserDataTo_loop id append (i + 1) m_all_holders object
  else
    { m_all_holders := m_all_holders, object := object }
termination_by m_all_holders.length - i
decreasing_by
  all_goals simp_wf
  all_goals first
    | (rw [List.length_eraseIdx]; split <;> omega)
    | omega

/-- Outcome of the whole call: `m_all_holders` and the object behind the
pointer afterwards. -/
structure MoveUserDataToOutcome where
  m_all_holders : List CUserDataHolderPiece
  object : Option ON_Object
deriving DecidableEq, Repr

/-- The function `ON_UserDataHolder_MoveUserDataTo( id, pConstObject, append )`. -/
def ON_UserDataHolder_MoveUserDataTo (m_all_holders : List CUserDataHolderPiece)
    (id : ON_UUID) (pConstObject : Option ON_Object) (append : Bool) : MoveUserDataToOutcome :=
  match pConstObject with
  | some obj =>
      if ON_UuidIsNotNil id then
        let r := MoveUserDataTo_loop id append 0 m_all_holders obj
        { m_all_holders := r.m_all_holders, object := some r.object }
      else
        { m_all_holders := m_all_holders, object := pConstObject }
  | none => { m_all_holders := m_all_holders, object := pConstObject }

/-! ## Reachable states of `g_classIds` -/

/-- How many non-null entries of the list have `Uuid()` equal to `id`. -/
def CRhCmnClassIdList.descriptorCount (self : CRhCmnClassIdList) (id : ON_UUID) : Nat :=
  self.m_class_ids.countP (fun pClassId =>
    match pClassId with
    | some c => c.Uuid == id
    | none => false)

/-- The states of `g_classIds` that the file can produce: it starts empty and
is written only by `ON_UserData_RegisterCustomUserData` and by `ClassId`
called on some `CRhCmnUserData`. -/
inductive RegistryReachable (super_ClassId : ON_ClassId) : CRhCmnClassIdList → Prop
  | empty : RegistryReachable super_ClassId { m_class_ids := [] }
  | register (g : CRhCmnClassIdList) (managed_type_name : String) (managed_type_id : ON_UUID) :
      RegistryReachable super_ClassId g →
      RegistryReachable super_ClassId
        (ON_UserData_RegisterCustomUserData g managed_type_name managed_type_id)
  | classId (g : CRhCmnClassIdList) (self : CRhCmnUserData) :
      RegistryReachable super_ClassId g →
      RegistryReachable super_ClassId (self.ClassId super_ClassId g).g_classIds

/-! ## Reachable states of `m_all_holders` -/

/-- How many pieces of the list are held under `id`. -/
def holderCount (m_all_holders : List CUserDataHolderPiece) (id : ON_UUID) : Nat :=
  m_all_holders.countP (fun piece => piece.m_id == id)

/-- The states of `m_all_holders` that the file can produce: it starts empty
and is written only by `ON_UserDataHolder_MoveUserDataFrom` and by
`ON_UserDataHolder_MoveUserDataTo`. -/
inductive HoldersReachable : List CUserDataHolderPiece → Prop
  | empty : HoldersReachable []
  | moveFrom (m_all_holders : List CUserDataHolderPiece) (id : ON_UUID)
      (pConstObject : Option ON_Object) :
      HoldersReachable m_all_holders →
      HoldersReachable
        (ON_UserDataHolder_MoveUserDataFrom m_all_holders id pConstObject).m_all_holders
  | moveTo (m_all_holders : List CUserDataHolderPiece) (id : ON_UUID)
      (pConstObject : Option ON_Object) (append : Bool) :
      HoldersReachable m_all_holders →
      HoldersReachable
        (ON_UserDataHolder_MoveUserDataTo m_all_holders id pConstObject append).m_all_holders

/-! ## The loop of `ON_UserDataHolder_MoveUserDataTo`, piece by piece -/

/-- What one matching piece does to the object: its holder, when not null,
moves its user data to the object. -/
def CUserDataHolderPiece.moveTo (piece : CUserDataHolderPiece) (object : ON_Object)
    (append : Bool) : ON_Object :=
  match piece.m_pHolder with
  | some holder => (holder.MoveUserDataTo object append).object
  | none => object

/-- The pieces from the loop index on that the loop leaves in the list, and
the object it leaves: a piece with the id is taken out and, because the
index moves on after `Remove(i)`, the piece behind it is kept unvisited. -/
def MoveUserDataTo_rest (id : ON_UUID) (append : Bool) :
    List CUserDataHolderPiece → ON_Object → List CUserDataHolderPiece × ON_Object
  | [], object => ([], object)
  | [piece], object =>
      if piece.m_id == id then ([], piece.moveTo object append) else ([piece], object)
  | piece :: next :: rest, object =>
      if piece.m_id == id then
        let r := MoveUserDataTo_rest id append rest (piece.moveTo object append)
        (next :: r.1, r.2)
      else
        let r := MoveUserDataTo_rest id append (next :: rest) object
        (piece :: r.1, r.2)

/-- A callback table whose duplicate callback hands back the serial number it
was given; the other five slots are unset. -/
def echoCallbacks : Callbacks :=
  CRhCmnUserData_SetCallbacks none none none (some (fun serial_number _ => serial_number)) none none

/-- A callback table with no slot set. -/
def noCallbacks : Callbacks :=
  CRhCmnUserData_SetCallbacks none none none none none none

/-- A proxy with serial number 5, type id 7 and plug-in id 9. -/
def proxyFive : CRhCmnUserData := CRhCmnUserData.new 5 7 9 "five"

/-- A proxy with the nil type id. -/
def proxyNil : CRhCmnUserData := CRhCmnUserData.new 1 ON_nil_uuid 9 "nil"

/-- The empty class-id list, as at program start. -/
def emptyClassIds : CRhCmnClassIdList := { m_class_ids := [] }

/-- An object that is no `CRhCmnUserData` and carries two user-data items. -/
def objectTwoItems : ON_Object :=
  { asRhCmnUserData := none
    m_userdata_list := [ON_UserData.rhCmn proxyFive, ON_UserData.foreign 11] }

/-- An object that is no `CRhCmnUserData` and carries no user data. -/
def objectNoItems : ON_Object := { asRhCmnUserData := none, m_userdata_list := [] }

/-- A callback table whose duplicate callback always returns `-5`, as a host
does that could not make the managed copy, and whose delete slot is set; the
other four slots are unset. -/
def refusingCallbacks : Callbacks :=
  CRhCmnUserData_SetCallbacks none none none (some (fun _ _ => -5)) none (some (fun _ => ()))

/-- A callback table with all six slots set; the duplicate callback returns
the serial number it was given plus 100, the archive and read/write
callbacks return 1. -/
def allCallbacks : Callbacks :=
  CRhCmnUserData_SetCallbacks (some (fun _ _ => ())) (some (fun _ => 1))
    (some (fun _ _ _ => 1)) (some (fun serial_number _ => serial_number + 100))
    (some (fun _ => none)) (some (fun _ => ()))

/-- A proxy of type id 7 and plug-in id 9 that is not yet bound to a managed
object: its serial number is `-1`. -/
def proxyUnbound : CRhCmnUserData := CRhCmnUserData.new (-1) 7 9 "unbound"

/-- A proxy of type id 7 and plug-in id 9 with serial number 8. -/
def proxyEight : CRhCmnUserData := CRhCmnUserData.new 8 7 9 "eight"

/-- A store with proxy 5 at address 0 and proxy 8 at address 1. -/
def storeFiveEight : Nat → Option ON_Object := fun a =>
  if a = 0 then some { asRhCmnUserData := some proxyFive, m_userdata_list := [] }
  else if a = 1 then some { asRhCmnUserData := some proxyEight, m_userdata_list := [] }
  else none

/-- A store with the unbound proxy at address 0 and nothing else. -/
def storeUnbound : Nat → Option ON_Object := fun a =>
  if a = 0 then some { asRhCmnUserData := some proxyUnbound, m_userdata_list := [] }
  else none

/-- A list of two neighbouring pieces under the same id 4; the file cannot
produce it, see `holdersTwoSame_not_reachable`. -/
def holdersTwoSame : List CUserDataHolderPiece :=
  [{ m_pHolder := some { m_userdata_list := [ON_UserData.foreign 12] }, m_id := 4 },
   { m_pHolder := some { m_userdata_list := [ON_UserData.foreign 13] }, m_id := 4 }]

/-- A holder list with one piece, held under id 4. -/
def holdersOne : List CUserDataHolderPiece :=
  [{ m_pHolder := some { m_userdata_list := [ON_UserData.foreign 12] }, m_id := 4 }]

/-! ## Theorems -/

/-- C1: for two proxies and any callback table, `CopyRhCmnUserData` returns
true exactly when the plug-in ids agree and the type ids agree, and false
exactly when one of the two differs. -/
theorem CopyRhCmnUserData_true_iff_ids_match (cb : Callbacks) (s d : CRhCmnUserData)
    (ls ld : List ON_UserData) :
    ((CopyRhCmnUserData cb (some ⟨some s, ls⟩) (some ⟨some d, ld⟩)).result = true ↔
        s.m_application_uuid = d.m_application_uuid ∧ s.m_userdata_uuid = d.m_userdata_uuid) ∧
    ((CopyRhCmnUserData cb (some ⟨some s, ls⟩) (some ⟨some d, ld⟩)).result = false ↔
        s.m_application_uuid ≠ d.m_application_uuid ∨ s.m_userdata_uuid ≠ d.m_userdata_uuid) := by
  have key : (CopyRhCmnUserData cb (some ⟨some s, ls⟩) (some ⟨some d, ld⟩)).result
      = decide (s.m_application_uuid = d.m_application_uuid ∧
          s.m_userdata_uuid = d.m_userdata_uuid) := by
    simp only [CopyRhCmnUserData, dynamic_cast, CRhCmnUserData.PlugInId,
      CRhCmnUserData.ManagedTypeId]
    by_cases hp : d.m_application_uuid = s.m_application_uuid
    · by_cases ht : d.m_userdata_uuid = s.m_userdata_uuid
      · simp only [hp, ht, bne_self_eq_false, Bool.false_eq_true, if_false, and_self,
          decide_True]
        split <;> rfl
      · have ht2 : ¬ s.m_userdata_uuid = d.m_userdata_uuid := fun h => ht h.symm
        simp [hp, ht, ht2]
    · have hp2 : ¬ s.m_application_uuid = d.m_application_uuid := fun h => hp h.symm
      simp [hp, hp2]
  rw [key]
  constructor
  · simp
  · rw [decide_eq_false_iff_not]
    constructor
    · intro h
      by_cases hp : s.m_application_uuid = d.m_application_uuid
      · exact Or.inr (fun ht => h ⟨hp, ht⟩)
      · exact Or.inl hp
    · rintro (h | h) ⟨hp, ht⟩
      · exact h hp
      · exact h ht

/-- C2, as stated, fails: with a duplicate callback that hands back the serial
number it was given, duplicating a proxy of serial number 5 gives a proxy
whose serial number is again 5, although the callback returned a handle
that is at least 1. -/
theorem DuplicateObject_handle_may_equal_source :
    echoCallbacks.m_duplicate.isSome = true ∧
    (proxyFive.DuplicateObject echoCallbacks).result
      = some (CRhCmnUserData.new 5 7 9 "five") ∧
    (1 : Int) ≤ (CRhCmnUserData.new 5 7 9 "five").m_serial_number ∧
    (CRhCmnUserData.new 5 7 9 "five").m_serial_number = proxyFive.m_serial_number :=
  ⟨rfl, rfl, by decide, rfl⟩

/-- C2, amended: when the installed duplicate callback returns a handle `h` of
at least 1, `DuplicateObject` returns a new proxy with serial number `h` and
with the type id, plug-in id and description of the source; its serial
number differs from the source's exactly when `h` does, so in particular
whenever the source's serial number is below 1. -/
theorem DuplicateObject_success (cb : Callbacks) (self : CRhCmnUserData)
    (duplicate : Int → CRhCmnUserData → Int) (h : Int)
    (hdup : cb.m_duplicate = some duplicate)
    (hret : duplicate self.m_serial_number
      (CRhCmnUserData.new (-1) self.m_userdata_uuid self.m_application_uuid
        self.m_description) = h)
    (hvalid : 1 ≤ h) :
    ∃ q, (self.DuplicateObject cb).result = some q ∧
      q.m_serial_number = h ∧
      q.m_userdata_uuid = self.m_userdata_uuid ∧
      q.m_application_uuid = self.m_application_uuid ∧
      q.m_description = self.m_description ∧
      (q.m_serial_number ≠ self.m_serial_number ↔ h ≠ self.m_serial_number) ∧
      (self.m_serial_number < 1 → q.m_serial_number ≠ self.m_serial_number) := by
  have hnot : ¬ h < 1 := by omega
  refine ⟨{ CRhCmnUserData.new (-1) self.m_userdata_uuid self.m_application_uuid
      self.m_description with m_serial_number := h }, ?_, rfl, rfl, rfl, rfl, Iff.rfl, ?_⟩
  · simp only [CRhCmnUserData.DuplicateObject, hdup, CRhCmnUserData.ManagedTypeId,
      CRhCmnUserData.PlugInId, hret, hnot, if_false]
  · intro hs
    show h ≠ self.m_serial_number
    omega

/-- Witness for `DuplicateObject_success`: the echo callback on the proxy of
serial number 5. -/
theorem DuplicateObject_success_witness :
    ∃ q, (proxyFive.DuplicateObject echoCallbacks).result = some q ∧
      q.m_serial_number = 5 ∧
      q.m_userdata_uuid = proxyFive.m_userdata_uuid ∧
      q.m_application_uuid = proxyFive.m_application_uuid ∧
      q.m_description = proxyFive.m_description ∧
      (q.m_serial_number ≠ proxyFive.m_serial_number ↔ (5 : Int) ≠ proxyFive.m_serial_number) ∧
      (proxyFive.m_serial_number < 1 → q.m_serial_number ≠ proxyFive.m_serial_number) :=
  DuplicateObject_success echoCallbacks proxyFive (fun serial_number _ => serial_number) 5
    rfl rfl (by decide)

/-- C3: `DuplicateObject` returns null when no duplicate callback is installed
and when the installed one returns a handle below 1; in both cases the
object it was called on is unchanged. -/
theorem DuplicateObject_failure (cb : Callbacks) (self : CRhCmnUserData)
    (hfail : cb.m_duplicate = none ∨
      ∃ duplicate, cb.m_duplicate = some duplicate ∧
        duplicate self.m_serial_number
          (CRhCmnUserData.new (-1) self.m_userdata_uuid self.m_application_uuid
            self.m_description) < 1) :
    (self.DuplicateObject cb).result = none ∧
    (self.DuplicateObject cb).self = self ∧
    (self.DuplicateObject cb).self.m_serial_number = self.m_serial_number := by
  rcases hfail with hnone | ⟨duplicate, hdup, hlt⟩
  · simp [CRhCmnUserData.DuplicateObject, hnone]
  · simp [CRhCmnUserData.DuplicateObject, hdup, CRhCmnUserData.ManagedTypeId,
      CRhCmnUserData.PlugInId, hlt]

/-- Witness for `DuplicateObject_failure`: no callback installed. -/
theorem DuplicateObject_failure_witness :
    (proxyFive.DuplicateObject noCallbacks).result = none ∧
    (proxyFive.DuplicateObject noCallbacks).self = proxyFive ∧
    (proxyFive.DuplicateObject noCallbacks).self.m_serial_number = proxyFive.m_serial_number :=
  DuplicateObject_failure noCallbacks proxyFive (Or.inl rfl)

/-- C4: `Archive` returns false when the archive slot or the read/write slot
is unset, whatever the serial number and the other slots; when both are set
it returns true exactly when the archive callback, applied to the serial
number, returns a value above 0. -/
theorem Archive_fail_closed (cb : Callbacks) (self : CRhCmnUserData) :
    ((cb.m_archive = none ∨ cb.m_readwrite = none) → (self.Archive cb).result = false) ∧
    (∀ archive readwrite, cb.m_archive = some archive → cb.m_readwrite = some readwrite →
      ((self.Archive cb).result = true ↔ 0 < archive self.m_serial_number)) := by
  constructor
  · rintro (h | h)
    · simp [CRhCmnUserData.Archive, h]
    · cases ha : cb.m_archive <;> simp [CRhCmnUserData.Archive, h, ha]
  · intro archive readwrite ha hr
    simp [CRhCmnUserData.Archive, ha, hr]

/-! ### The class-id list -/

/-- The search of `ClassId` finds the entry that `GetClassId` finds, seen as an
`ON_ClassId`. -/
theorem ClassId_loop_eq_map (id : ON_UUID) (l : List (Option CRhCmnClassId)) :
    ClassId_loop id l = (GetClassId_loop id l).map (fun c => c.toON_ClassId) := by
  induction l with
  | nil => rfl
  | cons e rest ih =>
      cases e with
      | none => simpa [ClassId_loop, GetClassId_loop] using ih
      | some c =>
          by_cases hc : c.Uuid = id
          · simp [ClassId_loop, GetClassId_loop, hc]
          · simpa [ClassId_loop, GetClassId_loop, hc] using ih

/-- An entry found by `GetClassId` carries the id asked for and is in the list. -/
theorem GetClassId_loop_uuid (id : ON_UUID) (l : List (Option CRhCmnClassId))
    (c : CRhCmnClassId) (h : GetClassId_loop id l = some c) : c.Uuid = id ∧ some c ∈ l := by
  induction l with
  | nil => simp [GetClassId_loop] at h
  | cons e rest ih =>
      cases e with
      | none =>
          simp only [GetClassId_loop] at h
          exact ⟨(ih h).1, List.mem_cons_of_mem _ (ih h).2⟩
      | some c2 =>
          by_cases hc : c2.Uuid = id
          · simp only [GetClassId_loop, hc, beq_self_eq_true, if_true, Option.some.injEq] at h
            subst h
            exact ⟨hc, List.mem_cons_self _ _⟩
          · simp only [GetClassId_loop, beq_iff_eq, hc, if_false] at h
            exact ⟨(ih h).1, List.mem_cons_of_mem _ (ih h).2⟩

/-- The search of `GetClassId` fails exactly when no entry carries the id. -/
theorem GetClassId_loop_eq_none_iff (id : ON_UUID) (l : List (Option CRhCmnClassId)) :
    GetClassId_loop id l = none ↔ CRhCmnClassIdList.descriptorCount ⟨l⟩ id = 0 := by
  induction l with
  | nil => simp [GetClassId_loop, CRhCmnClassIdList.descriptorCount]
  | cons e rest ih =>
      cases e with
      | none =>
          simpa [GetClassId_loop, CRhCmnClassIdList.descriptorCount, List.countP_cons] using ih
      | some c =>
          by_cases hc : c.Uuid = id
          · simp [GetClassId_loop, CRhCmnClassIdList.descriptorCount, List.countP_cons, hc]
          · simpa [GetClassId_loop, CRhCmnClassIdList.descriptorCount, List.countP_cons, hc]
              using ih

/-- The search of `GetClassId` succeeds when some entry carries the id. -/
theorem GetClassId_loop_of_mem (id : ON_UUID) (l : List (Option CRhCmnClassId))
    (c : CRhCmnClassId) (hmem : some c ∈ l) (hc : c.Uuid = id) :
    (GetClassId_loop id l).isSome = true := by
  cases hfind : GetClassId_loop id l with
  | some _ => rfl
  | none =>
      exfalso
      have h0 := (GetClassId_loop_eq_none_iff id l).1 hfind
      simp only [CRhCmnClassIdList.descriptorCount, List.countP_eq_zero] at h0
      have := h0 (some c) hmem
      simp [hc] at this

/-- Appending a new record adds one to the count of its own id and nothing to
the count of any other id. -/
theorem descriptorCount_append_new (g : CRhCmnClassIdList) (id id2 : ON_UUID)
    (class_name baseclass_name : String) :
    CRhCmnClassIdList.descriptorCount
        ⟨g.m_class_ids ++ [some (CRhCmnClassId.new id2 class_name baseclass_name)]⟩ id
      = g.descriptorCount id + (if id2 = id then 1 else 0) := by
  by_cases h : id2 = id <;>
    simp [CRhCmnClassIdList.descriptorCount, List.countP_append, List.countP_cons,
      CRhCmnClassId.new, ON_ClassId.Uuid, h]

/-- Registration keeps the count of any id at most 1. -/
theorem Register_descriptorCount_le (g : CRhCmnClassIdList) (name : String)
    (managed_type_id id : ON_UUID) (h : g.descriptorCount id ≤ 1) :
    (ON_UserData_RegisterCustomUserData g name managed_type_id).descriptorCount id ≤ 1 := by
  unfold ON_UserData_RegisterCustomUserData
  simp only
  split
  · exact h
  · rename_i hcond
    rw [descriptorCount_append_new]
    by_cases hid : managed_type_id = id
    · subst hid
      have hnone : GetClassId_loop managed_type_id g.m_class_ids = none := by
        cases hfind : GetClassId_loop managed_type_id g.m_class_ids with
        | none => rfl
        | some c => simp [CRhCmnClassIdList.GetClassId, hfind] at hcond
      have h0 := (GetClassId_loop_eq_none_iff _ _).1 hnone
      have h0b : g.descriptorCount managed_type_id = 0 := h0
      simp [h0b]
    · simp [hid, h]

/-- A call of `ClassId` keeps the count of any id at most 1. -/
theorem ClassId_descriptorCount_le (super_ClassId : ON_ClassId) (g : CRhCmnClassIdList)
    (self : CRhCmnUserData) (id : ON_UUID) (h : g.descriptorCount id ≤ 1) :
    (self.ClassId super_ClassId g).g_classIds.descriptorCount id ≤ 1 := by
  unfold CRhCmnUserData.ClassId
  cases hcache : self.m_pClassId with
  | some c => exact h
  | none =>
      simp only
      cases hfind : ClassId_loop self.m_userdata_uuid g.m_class_ids with
      | some c => exact h
      | none =>
          simp only
          split
          · rw [CRhCmnUserData.ManagedTypeId, descriptorCount_append_new]
            by_cases hid : self.m_userdata_uuid = id
            · have hnone : GetClassId_loop self.m_userdata_uuid g.m_class_ids = none := by
                rw [ClassId_loop_eq_map] at hfind
                simpa using hfind
              have h0 : g.descriptorCount self.m_userdata_uuid = 0 :=
                (GetClassId_loop_eq_none_iff _ _).1 hnone
              rw [← hid]
              simp [h0]
            · simp [hid, h]
          · exact h

/-- In a reachable state of the class-id list the count of any id is at most 1. -/
theorem reachable_descriptorCount_le (super_ClassId : ON_ClassId) (g : CRhCmnClassIdList)
    (hreach : RegistryReachable super_ClassId g) (id : ON_UUID) :
    g.descriptorCount id ≤ 1 := by
  induction hreach with
  | empty => simp [CRhCmnClassIdList.descriptorCount]
  | register g name managed_type_id _ ih => exact Register_descriptorCount_le g name _ id ih
  | classId g self _ ih => exact ClassId_descriptorCount_le super_ClassId g self id ih

/-- A newly constructed proxy has no cached class id, so any cached class id
it has carries its type id. -/
theorem new_cache_consistent (serial_number : Int) (managed_type_id plugin_id : ON_UUID)
    (description : String) (c : ON_ClassId)
    (h : (CRhCmnUserData.new serial_number managed_type_id plugin_id description).m_pClassId
      = some c) :
    c.Uuid = (CRhCmnUserData.new serial_number managed_type_id plugin_id
      description).m_userdata_uuid :=
  nomatch h

/-- An entry found by the search of `ClassId` carries the id asked for. -/
theorem ClassId_loop_uuid (id : ON_UUID) (l : List (Option CRhCmnClassId)) (c : ON_ClassId)
    (h : ClassId_loop id l = some c) : c.Uuid = id := by
  rw [ClassId_loop_eq_map] at h
  cases hget : GetClassId_loop id l with
  | none => simp [hget] at h
  | some c2 =>
      simp only [hget, Option.map_some', Option.some.injEq] at h
      rw [← h]
      exact (GetClassId_loop_uuid _ _ _ hget).1

/-- A call of `ClassId` leaves the type id alone, and the class id it caches
carries that type id. -/
theorem ClassId_keeps_cache_consistent (super_ClassId : ON_ClassId) (g : CRhCmnClassIdList)
    (self : CRhCmnUserData)
    (hcache : ∀ c, self.m_pClassId = some c → c.Uuid = self.m_userdata_uuid) :
    (self.ClassId super_ClassId g).self.m_userdata_uuid = self.m_userdata_uuid ∧
    ∀ c, (self.ClassId super_ClassId g).self.m_pClassId = some c →
      c.Uuid = self.m_userdata_uuid := by
  unfold CRhCmnUserData.ClassId
  cases hc : self.m_pClassId with
  | some c0 =>
      refine ⟨rfl, ?_⟩
      intro c h
      exact hcache c (by simpa [hc] using h)
  | none =>
      simp only
      cases hfind : ClassId_loop self.m_userdata_uuid g.m_class_ids with
      | some c1 =>
          refine ⟨rfl, ?_⟩
          intro c h
          simp only [Option.some.injEq] at h
          rw [← h]
          exact ClassId_loop_uuid _ _ _ hfind
      | none =>
          simp only
          split
          · refine ⟨rfl, ?_⟩
            intro c h
            simp only [Option.some.injEq] at h
            rw [← h]
            rfl
          · refine ⟨rfl, ?_⟩
            intro c h
            simp [hc] at h

/-- C5, as stated, fails for the nil type id: on the empty class-id list a
proxy with the nil type id gets the class id of `ON_UserData`, whose id is
not nil. -/
theorem ClassId_nil_type_id_gets_base_class :
    (proxyNil.ClassId ON_UserData_class_id emptyClassIds).result.Uuid
      ≠ proxyNil.m_userdata_uuid := by
  decide

/-- C5, amended: for a proxy whose cached class id, if any, carries the
proxy's type id, and any state of the class-id list, `ClassId` returns a
record whose id is the proxy's type id whenever that type id is not nil,
also when nothing was registered for it; for the nil type id, with nothing
cached and nothing registered, it returns the base-class record and leaves
the list as it is. -/
theorem ClassId_result_uuid (super_ClassId : ON_ClassId) (g : CRhCmnClassIdList)
    (self : CRhCmnUserData)
    (hcache : ∀ c, self.m_pClassId = some c → c.Uuid = self.m_userdata_uuid) :
    (self.m_userdata_uuid ≠ ON_nil_uuid →
      (self.ClassId super_ClassId g).result.Uuid = self.m_userdata_uuid) ∧
    (self.m_userdata_uuid = ON_nil_uuid → self.m_pClassId = none →
      g.GetClassId ON_nil_uuid = none →
      (self.ClassId super_ClassId g).result = super_ClassId ∧
      (self.ClassId super_ClassId g).g_classIds = g) := by
  constructor
  · intro hnil
    unfold CRhCmnUserData.ClassId
    cases hc : self.m_pClassId with
    | some c => exact hcache c hc
    | none =>
        simp only
        cases hfind : ClassId_loop self.m_userdata_uuid g.m_class_ids with
        | some c =>
            simp only
            rw [ClassId_loop_eq_map] at hfind
            cases hget : GetClassId_loop self.m_userdata_uuid g.m_class_ids with
            | none => simp [hget] at hfind
            | some c2 =>
                simp only [hget, Option.map_some', Option.some.injEq] at hfind
                rw [← hfind]
                exact (GetClassId_loop_uuid _ _ _ hget).1
        | none =>
            have hnn : ON_UuidIsNotNil self.m_userdata_uuid = true := by
              simpa [ON_UuidIsNotNil] using hnil
            simp [hnn, CRhCmnClassId.new, ON_ClassId.Uuid, CRhCmnUserData.ManagedTypeId]
  · intro hnil hc hreg
    have hfind : ClassId_loop ON_nil_uuid g.m_class_ids = none := by
      rw [ClassId_loop_eq_map]
      simp only [CRhCmnClassIdList.GetClassId] at hreg
      simp [hreg]
    unfold CRhCmnUserData.ClassId
    simp [hc, hnil, hfind, ON_UuidIsNotNil]

/-- Witness for `ClassId_result_uuid`: a fresh proxy of type id 7 on the empty
class-id list. -/
theorem ClassId_result_uuid_witness :
    (∀ c, proxyFive.m_pClassId = some c → c.Uuid = proxyFive.m_userdata_uuid) ∧
    (proxyFive.m_userdata_uuid ≠ ON_nil_uuid →
      (proxyFive.ClassId ON_UserData_class_id emptyClassIds).result.Uuid
        = proxyFive.m_userdata_uuid) ∧
    (proxyFive.m_userdata_uuid = ON_nil_uuid → proxyFive.m_pClassId = none →
      emptyClassIds.GetClassId ON_nil_uuid = none →
      (proxyFive.ClassId ON_UserData_class_id emptyClassIds).result = ON_UserData_class_id ∧
      (proxyFive.ClassId ON_UserData_class_id emptyClassIds).g_classIds = emptyClassIds) :=
  ⟨fun _ h => (nomatch h),
    ClassId_result_uuid ON_UserData_class_id emptyClassIds proxyFive (fun _ h => (nomatch h))⟩

/-- C6: in every state of the class-id list reachable from the empty list by
calls of `ON_UserData_RegisterCustomUserData` and of `ClassId`, the fallback
that makes a record included, at most one record carries a given id. -/
theorem registry_at_most_one_descriptor (super_ClassId : ON_ClassId) (g : CRhCmnClassIdList)
    (hreach : RegistryReachable super_ClassId g) (id : ON_UUID) :
    g.descriptorCount id ≤ 1 :=
  reachable_descriptorCount_le super_ClassId g hreach id

/-- Witness for `registry_at_most_one_descriptor`: register type id 7, then
resolve a proxy of type id 7 and one of type id 3. -/
theorem registry_at_most_one_descriptor_witness :
    ((CRhCmnUserData.new 2 3 9 "three").ClassId ON_UserData_class_id
      (proxyFive.ClassId ON_UserData_class_id
        (ON_UserData_RegisterCustomUserData emptyClassIds "Seven" 7)).g_classIds
      ).g_classIds.descriptorCount 7 ≤ 1 :=
  registry_at_most_one_descriptor ON_UserData_class_id _
    (RegistryReachable.classId _ _
      (RegistryReachable.classId _ _
        (RegistryReachable.register _ "Seven" 7 RegistryReachable.empty))) 7

/-- C7: from a reachable state of the class-id list, registering the same type
id twice, each time with a name that is not empty, leaves exactly one record
with that id. -/
theorem Register_twice_one_descriptor (super_ClassId : ON_ClassId) (g : CRhCmnClassIdList)
    (hreach : RegistryReachable super_ClassId g) (id : ON_UUID) (name1 name2 : String)
    (hname1 : 0 < name1.length) (_hname2 : 0 < name2.length) :
    (ON_UserData_RegisterCustomUserData
      (ON_UserData_RegisterCustomUserData g name1 id) name2 id).descriptorCount id = 1 := by
  have hle : (ON_UserData_RegisterCustomUserData
      (ON_UserData_RegisterCustomUserData g name1 id) name2 id).descriptorCount id ≤ 1 :=
    reachable_descriptorCount_le super_ClassId _
      (RegistryReachable.register _ name2 id (RegistryReachable.register g name1 id hreach)) id
  have hfirst : 1 ≤ (ON_UserData_RegisterCustomUserData g name1 id).descriptorCount id := by
    unfold ON_UserData_RegisterCustomUserData
    simp only
    split
    · rename_i hcond
      have hlen : ¬ name1.length < 1 := by omega
      simp only [Bool.or_eq_true, decide_eq_true_eq, hlen, false_or] at hcond
      have hne : GetClassId_loop id g.m_class_ids ≠ none := by
        intro hnone
        simp [CRhCmnClassIdList.GetClassId, hnone] at hcond
      have h0 : ¬ g.descriptorCount id = 0 := fun h =>
        hne ((GetClassId_loop_eq_none_iff id g.m_class_ids).2 h)
      omega
    · rw [descriptorCount_append_new]
      simp
  have hsecond : (ON_UserData_RegisterCustomUserData g name1 id).descriptorCount id ≤
      (ON_UserData_RegisterCustomUserData
        (ON_UserData_RegisterCustomUserData g name1 id) name2 id).descriptorCount id := by
    generalize ON_UserData_RegisterCustomUserData g name1 id = g1
    unfold ON_UserData_RegisterCustomUserData
    simp only
    split
    · exact le_refl _
    · rw [descriptorCount_append_new]
      omega
  omega

/-- Witness for `Register_twice_one_descriptor`: type id 7 registered twice on
the empty class-id list. -/
theorem Register_twice_one_descriptor_witness :
    RegistryReachable ON_UserData_class_id emptyClassIds ∧
    (ON_UserData_RegisterCustomUserData
      (ON_UserData_RegisterCustomUserData emptyClassIds "First" 7) "Second" 7
      ).descriptorCount 7 = 1 :=
  ⟨RegistryReachable.empty,
    Register_twice_one_descriptor ON_UserData_class_id emptyClassIds RegistryReachable.empty 7
      "First" "Second" (by decide) (by decide)⟩

/-- C8: `ON_UserData_RegisterCustomUserData` leaves the class-id list exactly as
it was when the name is empty or a record with the given id is already in
the list; every lookup, and with it the name of the record found, is as
before. -/
theorem Register_noop (g : CRhCmnClassIdList) (name : String) (id : ON_UUID)
    (hskip : name.length < 1 ∨ ∃ c, some c ∈ g.m_class_ids ∧ c.Uuid = id) :
    ON_UserData_RegisterCustomUserData g name id = g ∧
    (ON_UserData_RegisterCustomUserData g name id).m_class_ids = g.m_class_ids ∧
    ∀ id2, (ON_UserData_RegisterCustomUserData g name id).GetClassId id2 = g.GetClassId id2 := by
  have hsame : ON_UserData_RegisterCustomUserData g name id = g := by
    unfold ON_UserData_RegisterCustomUserData
    rcases hskip with hlen | ⟨c, hmem, hc⟩
    · simp [hlen]
    · have hsome := GetClassId_loop_of_mem id g.m_class_ids c hmem hc
      simp [CRhCmnClassIdList.GetClassId, hsome]
  rw [hsame]
  exact ⟨rfl, rfl, fun _ => rfl⟩

/-- Witness for `Register_noop`: type id 7 registered as `Other` when it is
already there as `Seven`. -/
theorem Register_noop_witness :
    ON_UserData_RegisterCustomUserData
        (ON_UserData_RegisterCustomUserData emptyClassIds "Seven" 7) "Other" 7
      = ON_UserData_RegisterCustomUserData emptyClassIds "Seven" 7 ∧
    (ON_UserData_RegisterCustomUserData
        (ON_UserData_RegisterCustomUserData emptyClassIds "Seven" 7) "Other" 7).m_class_ids
      = (ON_UserData_RegisterCustomUserData emptyClassIds "Seven" 7).m_class_ids ∧
    ∀ id2, (ON_UserData_RegisterCustomUserData
        (ON_UserData_RegisterCustomUserData emptyClassIds "Seven" 7) "Other" 7).GetClassId id2
      = (ON_UserData_RegisterCustomUserData emptyClassIds "Seven" 7).GetClassId id2 :=
  Register_noop (ON_UserData_RegisterCustomUserData emptyClassIds "Seven" 7) "Other" 7
    (Or.inr ⟨CRhCmnClassId.new 7 "Seven" "ON_UserData", by decide, rfl⟩)

/-! ### The holder list -/

/-- At or past the end of the list the loop stops and changes nothing. -/
theorem MoveUserDataTo_loop_past_end (id : ON_UUID) (append : Bool) (i : Nat)
    (l : List CUserDataHolderPiece) (object : ON_Object) (hi : l.length ≤ i) :
    MoveUserDataTo_loop id append i l object = { m_all_holders := l, object := object } := by
  rw [MoveUserDataTo_loop]
  have : ¬ i < l.length := by omega
  simp [this]

/-- On a list without the id followed by one piece with the id, the loop from
any index up to that piece takes the piece out and moves its user data. -/
theorem MoveUserDataTo_loop_appended (id : ON_UUID) (append : Bool)
    (l : List CUserDataHolderPiece) (hfree : ∀ piece ∈ l, piece.m_id ≠ id)
    (holder : ON_UserDataHolder) (object : ON_Object) :
    ∀ k i, l.length - i = k → i ≤ l.length →
      MoveUserDataTo_loop id append i (l ++ [{ m_pHolder := some holder, m_id := id }]) object
        = { m_all_holders := l, object := (holder.MoveUserDataTo object append).object } := by
  intro k
  induction k with
  | zero =>
      intro i hk hi
      have hil : i = l.length := by omega
      subst hil
      rw [MoveUserDataTo_loop]
      have hlt : l.length < (l ++ [({ m_pHolder := some holder, m_id := id } :
          CUserDataHolderPiece)]).length := by simp
      simp only [hlt, dite_true, List.get_eq_getElem]
      have hget : (l ++ [({ m_pHolder := some holder, m_id := id } :
          CUserDataHolderPiece)])[l.length] = { m_pHolder := some holder, m_id := id } := by
        simp
      simp only [hget, beq_self_eq_true, if_true]
      have hrem : (l ++ [({ m_pHolder := some holder, m_id := id } :
          CUserDataHolderPiece)]).eraseIdx l.length = l := by
        rw [List.eraseIdx_append_of_length_le (le_refl _)]
        simp
      rw [hrem]
      exact MoveUserDataTo_loop_past_end id append _ l _ (by omega)
  | succ k ih =>
      intro i hk hi
      have hil : i < l.length := by omega
      rw [MoveUserDataTo_loop]
      have hlt : i < (l ++ [({ m_pHolder := some holder, m_id := id } :
          CUserDataHolderPiece)]).length := by simp; omega
      simp only [hlt, dite_true, List.get_eq_getElem]
      have hget : (l ++ [({ m_pHolder := some holder, m_id := id } :
          CUserDataHolderPiece)])[i] = l[i] := List.getElem_append_left hil
      have hne : ¬ l[i].m_id = id := hfree _ (List.getElem_mem hil)
      simp only [hget, beq_iff_eq, hne, if_false]
      exact ih (i + 1) (by omega) (by omega)

/-- C9: for an object with at least one user-data item and a correlation id
that is not nil and not held, `ON_UserDataHolder_MoveUserDataFrom` succeeds
and empties the object, and `ON_UserDataHolder_MoveUserDataTo` with the same
id and `append = false` then gives the object back exactly as it was and
leaves `m_all_holders` as it was before the first call. -/
theorem MoveUserDataFrom_then_MoveUserDataTo_restores
    (m_all_holders : List CUserDataHolderPiece) (id : ON_UUID) (obj : ON_Object)
    (hid : id ≠ ON_nil_uuid)
    (hfree : ∀ piece ∈ m_all_holders, piece.m_id ≠ id)
    (hdata : obj.m_userdata_list ≠ []) :
    (ON_UserDataHolder_MoveUserDataFrom m_all_holders id (some obj)).result = true ∧
    (ON_UserDataHolder_MoveUserDataFrom m_all_holders id (some obj)).object
      = some { obj with m_userdata_list := [] } ∧
    (ON_UserDataHolder_MoveUserDataTo
      (ON_UserDataHolder_MoveUserDataFrom m_all_holders id (some obj)).m_all_holders id
      (ON_UserDataHolder_MoveUserDataFrom m_all_holders id (some obj)).object false).object
      = some obj ∧
    (ON_UserDataHolder_MoveUserDataTo
      (ON_UserDataHolder_MoveUserDataFrom m_all_holders id (some obj)).m_all_holders id
      (ON_UserDataHolder_MoveUserDataFrom m_all_holders id (some obj)).object false).m_all_holders
      = m_all_holders := by
  have hnn : ON_UuidIsNotNil id = true := by simpa [ON_UuidIsNotNil] using hid
  have hany : m_all_holders.any (fun piece => piece.m_id == id) = false := by
    rw [List.any_eq_false]
    intro piece hmem
    simpa using hfree piece hmem
  have hempty : obj.m_userdata_list.isEmpty = false := by
    cases hl : obj.m_userdata_list with
    | nil => exact absurd hl hdata
    | cons _ _ => rfl
  have hfrom : ON_UserDataHolder_MoveUserDataFrom m_all_holders id (some obj)
      = { result := true
          m_all_holders := m_all_holders ++
            [{ m_pHolder := some { m_userdata_list := obj.m_userdata_list }, m_id := id }]
          object := some { obj with m_userdata_list := [] } } := by
    simp [ON_UserDataHolder_MoveUserDataFrom, hnn, hany, hempty,
      ON_UserDataHolder.MoveUserDataFrom]
  rw [hfrom]
  refine ⟨rfl, rfl, ?_, ?_⟩
  · simp only [ON_UserDataHolder_MoveUserDataTo, hnn, if_true]
    rw [MoveUserDataTo_loop_appended id false m_all_holders hfree _ _ _ 0 rfl (Nat.zero_le _)]
    simp [ON_UserDataHolder.MoveUserDataTo]
  · simp only [ON_UserDataHolder_MoveUserDataTo, hnn, if_true]
    rw [MoveUserDataTo_loop_appended id false m_all_holders hfree _ _ _ 0 rfl (Nat.zero_le _)]

/-- Witness for `MoveUserDataFrom_then_MoveUserDataTo_restores`: an object
with two items, id 6, while one piece is held under id 4. -/
theorem MoveUserDataFrom_then_MoveUserDataTo_restores_witness :
    ((6 : ON_UUID) ≠ ON_nil_uuid ∧ (∀ piece ∈ holdersOne, piece.m_id ≠ 6) ∧
      objectTwoItems.m_userdata_list ≠ []) ∧
    (ON_UserDataHolder_MoveUserDataFrom holdersOne 6 (some objectTwoItems)).result = true ∧
    (ON_UserDataHolder_MoveUserDataFrom holdersOne 6 (some objectTwoItems)).object
      = some { objectTwoItems with m_userdata_list := [] } ∧
    (ON_UserDataHolder_MoveUserDataTo
      (ON_UserDataHolder_MoveUserDataFrom holdersOne 6 (some objectTwoItems)).m_all_holders 6
      (ON_UserDataHolder_MoveUserDataFrom holdersOne 6 (some objectTwoItems)).object false).object
      = some objectTwoItems ∧
    (ON_UserDataHolder_MoveUserDataTo
      (ON_UserDataHolder_MoveUserDataFrom holdersOne 6 (some objectTwoItems)).m_all_holders 6
      (ON_UserDataHolder_MoveUserDataFrom holdersOne 6 (some objectTwoItems)).object
      false).m_all_holders
      = holdersOne :=
  ⟨⟨by decide, by decide, by decide⟩,
    MoveUserDataFrom_then_MoveUserDataTo_restores holdersOne 6 objectTwoItems
      (by decide) (by decide) (by decide)⟩

/-- C10: `ON_UserDataHolder_MoveUserDataFrom` returns false, adds no piece to
`m_all_holders` and leaves the object as it is when the id is nil, when the
object (if there is one) has no user data, or when a piece with that id is
already in `m_all_holders`. -/
theorem MoveUserDataFrom_refuses (m_all_holders : List CUserDataHolderPiece) (id : ON_UUID)
    (pConstObject : Option ON_Object)
    (hrefuse : id = ON_nil_uuid ∨
      (∀ obj, pConstObject = some obj → obj.m_userdata_list = []) ∨
      (∃ piece ∈ m_all_holders, piece.m_id = id)) :
    (ON_UserDataHolder_MoveUserDataFrom m_all_holders id pConstObject).result = false ∧
    (ON_UserDataHolder_MoveUserDataFrom m_all_holders id pConstObject).m_all_holders
      = m_all_holders ∧
    (ON_UserDataHolder_MoveUserDataFrom m_all_holders id pConstObject).object
      = pConstObject := by
  cases pConstObject with
  | none => simp [ON_UserDataHolder_MoveUserDataFrom]
  | some obj =>
      rcases hrefuse with hnil | hnone | ⟨piece, hmem, hpid⟩
      · simp [ON_UserDataHolder_MoveUserDataFrom, ON_UuidIsNotNil, hnil]
      · have hl : obj.m_userdata_list = [] := hnone obj rfl
        simp [ON_UserDataHolder_MoveUserDataFrom, hl]
      · have hany : m_all_holders.any (fun piece => piece.m_id == id) = true := by
          rw [List.any_eq_true]
          exact ⟨piece, hmem, by simpa using hpid⟩
        unfold ON_UserDataHolder_MoveUserDataFrom
        simp only [hany, if_true]
        split <;> exact ⟨rfl, rfl, rfl⟩

/-- Witness for `MoveUserDataFrom_refuses`: id 4 is already held. -/
theorem MoveUserDataFrom_refuses_witness :
    (∃ piece ∈ holdersOne, piece.m_id = 4) ∧
    (ON_UserDataHolder_MoveUserDataFrom holdersOne 4 (some objectTwoItems)).result = false ∧
    (ON_UserDataHolder_MoveUserDataFrom holdersOne 4 (some objectTwoItems)).m_all_holders
      = holdersOne ∧
    (ON_UserDataHolder_MoveUserDataFrom holdersOne 4 (some objectTwoItems)).object
      = some objectTwoItems :=
  ⟨by decide,
    MoveUserDataFrom_refuses holdersOne 4 (some objectTwoItems) (Or.inr (Or.inr (by decide)))⟩

/-! ### The loop of `ON_UserDataHolder_MoveUserDataTo` -/

/-- One round of the loop at a piece held under the id: the piece is taken
out, its user data moved, and the loop goes on one index further. -/
theorem MoveUserDataTo_loop_at_match (id : ON_UUID) (append : Bool)
    (pre rest : List CUserDataHolderPiece) (piece : CUserDataHolderPiece) (object : ON_Object)
    (hmatch : piece.m_id = id) :
    MoveUserDataTo_loop id append pre.length (pre ++ piece :: rest) object
      = MoveUserDataTo_loop id append (pre.length + 1) (pre ++ rest)
          (piece.moveTo object append) := by
  rw [MoveUserDataTo_loop]
  have hlt : pre.length < (pre ++ piece :: rest).length := by simp
  have hget : (pre ++ piece :: rest)[pre.length] = piece := by
    simp [List.getElem_append_right]
  have hrem : (pre ++ piece :: rest).eraseIdx pre.length = pre ++ rest := by
    rw [List.eraseIdx_append_of_length_le (le_refl _)]
    simp
  simp only [hlt, dite_true, List.get_eq_getElem, hget, hmatch, beq_self_eq_true, if_true, hrem,
    CUserDataHolderPiece.moveTo]
  cases piece.m_pHolder <;> rfl

/-- One round of the loop at a piece held under another id: nothing changes
and the loop goes on one index further. -/
theorem MoveUserDataTo_loop_at_other (id : ON_UUID) (append : Bool)
    (pre rest : List CUserDataHolderPiece) (piece : CUserDataHolderPiece) (object : ON_Object)
    (hother : piece.m_id ≠ id) :
    MoveUserDataTo_loop id append pre.length (pre ++ piece :: rest) object
      = MoveUserDataTo_loop id append (pre.length + 1) (pre ++ piece :: rest) object := by
  rw [MoveUserDataTo_loop]
  have hlt : pre.length < (pre ++ piece :: rest).length := by simp
  have hget : (pre ++ piece :: rest)[pre.length] = piece := by
    simp [List.getElem_append_right]
  simp only [hlt, dite_true, List.get_eq_getElem, hget, beq_iff_eq, hother, if_false]

/-- The loop from index `pre.length` on the list `pre ++ suf` leaves `pre`
alone and does to `suf` what `MoveUserDataTo_rest` says. -/
theorem MoveUserDataTo_loop_eq_rest (id : ON_UUID) (append : Bool) :
    ∀ n (suf : List CUserDataHolderPiece), suf.length ≤ n →
      ∀ (pre : List CUserDataHolderPiece) (object : ON_Object),
        MoveUserDataTo_loop id append pre.length (pre ++ suf) object
          = { m_all_holders := pre ++ (MoveUserDataTo_rest id append suf object).1
              object := (MoveUserDataTo_rest id append suf object).2 } := by
  intro n
  induction n with
  | zero =>
      intro suf hlen pre object
      have hnil : suf = [] := List.eq_nil_of_length_eq_zero (by omega)
      subst hnil
      rw [MoveUserDataTo_loop_past_end id append _ _ _ (by simp)]
      simp [MoveUserDataTo_rest]
  | succ n ih =>
      intro suf hlen pre object
      match suf, hlen with
      | [], _ =>
          rw [MoveUserDataTo_loop_past_end id append _ _ _ (by simp)]
          simp [MoveUserDataTo_rest]
      | [piece], _ =>
          by_cases hm : piece.m_id = id
          · rw [MoveUserDataTo_loop_at_match id append pre [] piece object hm,
              MoveUserDataTo_loop_past_end id append _ _ _ (by simp)]
            simp [MoveUserDataTo_rest, hm]
          · rw [MoveUserDataTo_loop_at_other id append pre [] piece object hm,
              MoveUserDataTo_loop_past_end id append _ _ _ (by simp)]
            simp [MoveUserDataTo_rest, hm]
      | piece :: next :: rest, hlen =>
          by_cases hm : piece.m_id = id
          · rw [MoveUserDataTo_loop_at_match id append pre (next :: rest) piece object hm]
            have hsplit : pre ++ next :: rest = (pre ++ [next]) ++ rest := by simp
            have hidx : pre.length + 1 = (pre ++ [next]).length := by simp
            rw [hsplit, hidx, ih rest (by simp at hlen; omega)]
            simp [MoveUserDataTo_rest, hm]
          · rw [MoveUserDataTo_loop_at_other id append pre (next :: rest) piece object hm]
            have hsplit : pre ++ piece :: next :: rest = (pre ++ [piece]) ++ (next :: rest) := by
              simp
            have hidx : pre.length + 1 = (pre ++ [piece]).length := by simp
            rw [hsplit, hidx, ih (next :: rest) (by simp at hlen ⊢; omega)]
            simp [MoveUserDataTo_rest, hm]

/-- The whole loop, started at index 0, does what `MoveUserDataTo_rest` says. -/
theorem MoveUserDataTo_loop_zero (id : ON_UUID) (append : Bool)
    (l : List CUserDataHolderPiece) (object : ON_Object) :
    MoveUserDataTo_loop id append 0 l object
      = { m_all_holders := (MoveUserDataTo_rest id append l object).1
          object := (MoveUserDataTo_rest id append l object).2 } := by
  have h := MoveUserDataTo_loop_eq_rest id append l.length l (le_refl _) [] object
  simpa using h

/-- On a list with no piece held under the id, nothing is taken out and the
object is left alone. -/
theorem MoveUserDataTo_rest_no_match (id : ON_UUID) (append : Bool) :
    ∀ (l : List CUserDataHolderPiece) (object : ON_Object),
      (∀ piece ∈ l, piece.m_id ≠ id) → MoveUserDataTo_rest id append l object = (l, object)
  | [], _, _ => by simp [MoveUserDataTo_rest]
  | [piece], object, h => by
      have hp : piece.m_id ≠ id := h piece (by simp)
      simp [MoveUserDataTo_rest, hp]
  | piece :: next :: rest, object, h => by
      have hp : piece.m_id ≠ id := h piece (by simp)
      have ih := MoveUserDataTo_rest_no_match id append (next :: rest) object
        (fun q hq => h q (List.mem_cons_of_mem _ hq))
      simp [MoveUserDataTo_rest, hp, ih]

/-- The pieces the loop leaves are pieces of the list it started with, in the
same order. -/
theorem MoveUserDataTo_rest_sublist (id : ON_UUID) (append : Bool) :
    ∀ (l : List CUserDataHolderPiece) (object : ON_Object),
      (MoveUserDataTo_rest id append l object).1.Sublist l
  | [], _ => by simp [MoveUserDataTo_rest]
  | [piece], object => by
      by_cases hp : piece.m_id = id <;> simp [MoveUserDataTo_rest, hp]
  | piece :: next :: rest, object => by
      by_cases hp : piece.m_id = id
      · have ih := MoveUserDataTo_rest_sublist id append rest (piece.moveTo object append)
        simp only [MoveUserDataTo_rest, hp, beq_self_eq_true, if_true]
        exact List.Sublist.cons _ (List.Sublist.cons₂ _ ih)
      · have ih := MoveUserDataTo_rest_sublist id append (next :: rest) object
        simp only [MoveUserDataTo_rest, beq_iff_eq, hp, if_false]
        exact List.Sublist.cons₂ _ ih

/-- What `ON_UserDataHolder_MoveUserDataTo` leaves of the holder list is made
of pieces of the list it started with, in the same order. -/
theorem MoveUserDataTo_holders_sublist (m_all_holders : List CUserDataHolderPiece)
    (id : ON_UUID) (pConstObject : Option ON_Object) (append : Bool) :
    (ON_UserDataHolder_MoveUserDataTo m_all_holders id pConstObject append).m_all_holders.Sublist
      m_all_holders := by
  unfold ON_UserDataHolder_MoveUserDataTo
  cases pConstObject with
  | none => exact List.Sublist.refl _
  | some obj =>
      simp only
      split
      · rw [MoveUserDataTo_loop_zero]
        exact MoveUserDataTo_rest_sublist id append m_all_holders obj
      · exact List.Sublist.refl _

/-- What `ON_UserDataHolder_MoveUserDataFrom` does to the holder list: nothing,
or one piece is appended whose id is not nil and was not held. -/
theorem MoveUserDataFrom_holders_cases (m_all_holders : List CUserDataHolderPiece)
    (id : ON_UUID) (pConstObject : Option ON_Object) :
    (ON_UserDataHolder_MoveUserDataFrom m_all_holders id pConstObject).m_all_holders
        = m_all_holders ∨
    (id ≠ ON_nil_uuid ∧ (∀ piece ∈ m_all_holders, piece.m_id ≠ id) ∧
      ∃ pHolder, (ON_UserDataHolder_MoveUserDataFrom m_all_holders id pConstObject).m_all_holders
        = m_all_holders ++ [{ m_pHolder := pHolder, m_id := id }]) := by
  unfold ON_UserDataHolder_MoveUserDataFrom
  cases pConstObject with
  | none => exact Or.inl rfl
  | some obj =>
      simp only
      split
      · rename_i hcond
        split
        · exact Or.inl rfl
        · rename_i hany
          split
          · exact Or.inl rfl
          · refine Or.inr ⟨?_, ?_, _, rfl⟩
            · intro hnil
              simp [ON_UuidIsNotNil, hnil] at hcond
            · intro piece hmem hpid
              apply hany
              rw [List.any_eq_true]
              exact ⟨piece, hmem, by simpa using hpid⟩
      · exact Or.inl rfl

/-- In a reachable state of the holder list every id is held at most once and
no piece is held under the nil id. -/
theorem reachable_holders_invariant (m_all_holders : List CUserDataHolderPiece)
    (hreach : HoldersReachable m_all_holders) :
    (∀ id, holderCount m_all_holders id ≤ 1) ∧
    ∀ piece ∈ m_all_holders, piece.m_id ≠ ON_nil_uuid := by
  induction hreach with
  | empty => simp [holderCount]
  | moveFrom l id pConstObject _ ih =>
      rcases MoveUserDataFrom_holders_cases l id pConstObject with hsame | ⟨hid, hfree, pHolder, happ⟩
      · rw [hsame]
        exact ih
      · rw [happ]
        constructor
        · intro id2
          have hcount := ih.1 id2
          simp only [holderCount, List.countP_append, List.countP_cons, List.countP_nil] at hcount ⊢
          by_cases h2 : id = id2
          · subst h2
            have hzero : List.countP (fun piece => piece.m_id == id) l = 0 := by
              rw [List.countP_eq_zero]
              intro piece hmem
              simpa using hfree piece hmem
            simp [hzero]
          · simp [h2]
            exact hcount
        · intro piece hmem
          rcases List.mem_append.1 hmem with hl | hnew
          · exact ih.2 piece hl
          · simp only [List.mem_singleton] at hnew
            rw [hnew]
            exact hid
  | moveTo l id pConstObject append _ ih =>
      have hsub := MoveUserDataTo_holders_sublist l id pConstObject append
      constructor
      · intro id2
        exact le_trans (List.Sublist.countP_le _ hsub) (ih.1 id2)
      · intro piece hmem
        exact ih.2 piece (hsub.subset hmem)

/-- C11: when no held piece has the given id, `ON_UserDataHolder_MoveUserDataTo`
changes neither the holder list nor the object, for every holder list,
object pointer and append flag. -/
theorem MoveUserDataTo_no_match_noop (m_all_holders : List CUserDataHolderPiece)
    (id : ON_UUID) (pConstObject : Option ON_Object) (append : Bool)
    (hnone : ∀ piece ∈ m_all_holders, piece.m_id ≠ id) :
    (ON_UserDataHolder_MoveUserDataTo m_all_holders id pConstObject append).m_all_holders
      = m_all_holders ∧
    (ON_UserDataHolder_MoveUserDataTo m_all_holders id pConstObject append).object
      = pConstObject := by
  unfold ON_UserDataHolder_MoveUserDataTo
  cases pConstObject with
  | none => exact ⟨rfl, rfl⟩
  | some obj =>
      simp only
      split
      · rw [MoveUserDataTo_loop_zero, MoveUserDataTo_rest_no_match id append m_all_holders obj hnone]
        exact ⟨rfl, rfl⟩
      · exact ⟨rfl, rfl⟩

/-- Witness for `MoveUserDataTo_no_match_noop`: id 6 while only id 4 is held. -/
theorem MoveUserDataTo_no_match_noop_witness :
    (∀ piece ∈ holdersOne, piece.m_id ≠ 6) ∧
    (ON_UserDataHolder_MoveUserDataTo holdersOne 6 (some objectTwoItems) true).m_all_holders
      = holdersOne ∧
    (ON_UserDataHolder_MoveUserDataTo holdersOne 6 (some objectTwoItems) true).object
      = some objectTwoItems :=
  ⟨by decide,
    MoveUserDataTo_no_match_noop holdersOne 6 (some objectTwoItems) true (by decide)⟩

/-- C12: in every state of the holder list reachable from the empty list by
calls of `ON_UserDataHolder_MoveUserDataFrom` and
`ON_UserDataHolder_MoveUserDataTo`, every id is held at most once and no piece
is held under the nil id. -/
theorem holders_at_most_one_per_id (m_all_holders : List CUserDataHolderPiece)
    (hreach : HoldersReachable m_all_holders) :
    (∀ id, holderCount m_all_holders id ≤ 1) ∧
    ∀ piece ∈ m_all_holders, piece.m_id ≠ ON_nil_uuid :=
  reachable_holders_invariant m_all_holders hreach

/-- Witness for `holders_at_most_one_per_id`: detach under id 6, detach under
id 6 again, detach under the nil id, reattach under id 4. -/
theorem holders_at_most_one_per_id_witness :
    (∀ id, holderCount
      (ON_UserDataHolder_MoveUserDataTo
        (ON_UserDataHolder_MoveUserDataFrom
          (ON_UserDataHolder_MoveUserDataFrom
            (ON_UserDataHolder_MoveUserDataFrom [] 6 (some objectTwoItems)).m_all_holders
            6 (some objectTwoItems)).m_all_holders
          ON_nil_uuid (some objectTwoItems)).m_all_holders
        4 (some objectNoItems) false).m_all_holders id ≤ 1) ∧
    ∀ piece ∈
      (ON_UserDataHolder_MoveUserDataTo
        (ON_UserDataHolder_MoveUserDataFrom
          (ON_UserDataHolder_MoveUserDataFrom
            (ON_UserDataHolder_MoveUserDataFrom [] 6 (some objectTwoItems)).m_all_holders
            6 (some objectTwoItems)).m_all_holders
          ON_nil_uuid (some objectTwoItems)).m_all_holders
        4 (some objectNoItems) false).m_all_holders, piece.m_id ≠ ON_nil_uuid :=
  holders_at_most_one_per_id _
    (HoldersReachable.moveTo _ 4 (some objectNoItems) false
      (HoldersReachable.moveFrom _ ON_nil_uuid (some objectTwoItems)
        (HoldersReachable.moveFrom _ 6 (some objectTwoItems)
          (HoldersReachable.moveFrom [] 6 (some objectTwoItems) HoldersReachable.empty))))

/-! ### Lookup of user data, and what the loop does without neighbours -/

/-- On an object whose user-data items have distinct ids, `GetUserData` finds
any attached item by its id. -/
theorem GetUserData_of_mem (obj : ON_Object) (id : ON_UUID)
    (hunique : (obj.m_userdata_list.map ON_UserData.m_userdata_uuid).Nodup)
    (ud : ON_UserData) (hmem : ud ∈ obj.m_userdata_list) (hid : ud.m_userdata_uuid = id) :
    obj.GetUserData id = some ud := by
  unfold ON_Object.GetUserData
  generalize obj.m_userdata_list = l at hunique hmem
  induction l with
  | nil => simp at hmem
  | cons x xs ih =>
      rw [List.map_cons, List.nodup_cons] at hunique
      rcases List.mem_cons.1 hmem with hx | hxs
      · subst hx
        simp [List.find?_cons, hid]
      · have hne : x.m_userdata_uuid ≠ id := by
          intro hxid
          apply hunique.1
          rw [hxid, ← hid]
          exact List.mem_map_of_mem _ hxs
        have hb : (x.m_userdata_uuid == id) = false := by simpa using hne
        rw [List.find?_cons, hb]
        exact ih hunique.2 hxs

/-- The object behind `src` is never written by `CopyRhCmnUserData`. -/
theorem CopyRhCmnUserData_src (cb : Callbacks) (src dst : Option ON_Object) :
    (CopyRhCmnUserData cb src dst).src = src := by
  unfold CopyRhCmnUserData
  split
  · split
    · rfl
    · split
      · rfl
      · split <;> rfl
  · rfl

/-- C13, as stated, fails for a callback table whose delete slot is unset:
destroying the proxy of serial number 5, directly or through
`CRhCmnUserData_Delete`, then makes no call at all. -/
theorem destructor_without_delete_slot_calls_nothing :
    noCallbacks.m_delete.isNone = true ∧
    proxyFive.destructor noCallbacks = [] ∧
    CRhCmnUserData_Delete noCallbacks (some proxyFive) 5 = [] ∧
    (proxyFive.destructor noCallbacks).count (Call.delete proxyFive.m_serial_number) ≠ 1 := by
  decide

/-- C13, amended: destroying a proxy, directly or through
`CRhCmnUserData_Delete`, calls the delete callback exactly once, with the
serial number of the proxy, whatever that number is, when the delete slot is
set, and makes no other call; when the slot is unset it makes no call. -/
theorem destructor_calls_delete_when_set (cb : Callbacks) (self : CRhCmnUserData)
    (serial_number : Int) :
    (cb.m_delete.isSome = true →
      self.destructor cb = [Call.delete self.m_serial_number] ∧
      CRhCmnUserData_Delete cb (some self) serial_number = [Call.delete self.m_serial_number] ∧
      (self.destructor cb).count (Call.delete self.m_serial_number) = 1) ∧
    (cb.m_delete = none →
      self.destructor cb = [] ∧ CRhCmnUserData_Delete cb (some self) serial_number = []) := by
  constructor
  · intro hset
    cases hd : cb.m_delete with
    | none => simp [hd] at hset
    | some f => simp [CRhCmnUserData.destructor, CRhCmnUserData_Delete, hd]
  · intro hnone
    simp [CRhCmnUserData.destructor, CRhCmnUserData_Delete, hnone]

/-- C15: `Transform` returns `TRUE` and leaves the proxy as it is; it calls the
transform callback exactly once, with the serial number and the
transformation, when the transform slot is set, and makes no call when the
slot is unset. -/
theorem Transform_forwards (cb : Callbacks) (self : CRhCmnUserData) (xform : ON_Xform) :
    (self.Transform cb xform).result = true ∧
    (self.Transform cb xform).self = self ∧
    (cb.m_transform.isSome = true →
      (self.Transform cb xform).calls = [Call.transform self.m_serial_number xform]) ∧
    (cb.m_transform = none → (self.Transform cb xform).calls = []) := by
  unfold CRhCmnUserData.Transform
  cases cb.m_transform <;> simp

/-- C16: `Write` and `Read` return `FALSE` and make no call when the read/write
slot is unset; when it is set, `Write` returns what the callback returns for
the serial number, direction 1 and the archive, `Read` what it returns for
the serial number, direction 0 and the archive, each with that one call. -/
theorem Write_Read_forward (cb : Callbacks) (self : CRhCmnUserData)
    (binary_archive : ON_BinaryArchive) :
    (cb.m_readwrite = none →
      (self.Write cb binary_archive).result = 0 ∧ (self.Write cb binary_archive).calls = [] ∧
      (self.Read cb binary_archive).result = 0 ∧ (self.Read cb binary_archive).calls = []) ∧
    (∀ readwrite, cb.m_readwrite = some readwrite →
      (self.Write cb binary_archive).result = readwrite self.m_serial_number 1 binary_archive ∧
      (self.Write cb binary_archive).calls
        = [Call.readwrite self.m_serial_number 1 binary_archive] ∧
      (self.Read cb binary_archive).result = readwrite self.m_serial_number 0 binary_archive ∧
      (self.Read cb binary_archive).calls
        = [Call.readwrite self.m_serial_number 0 binary_archive]) := by
  constructor
  · intro hnone
    simp [CRhCmnUserData.Write, CRhCmnUserData.Read, hnone]
  · intro readwrite hset
    simp [CRhCmnUserData.Write, CRhCmnUserData.Read, hset]

/-- C17: `CRhCmnUserData_Find` returns `-1` for a null object; for an object
whose user-data items have distinct ids, it returns the serial number of the
proxy attached under the type id when there is one, and `-1` when no item
has that id or the item with that id is not a proxy. -/
theorem Find_returns_handle_or_minus_one (obj : ON_Object) (managed_type_id : ON_UUID)
    (hunique : (obj.m_userdata_list.map ON_UserData.m_userdata_uuid).Nodup) :
    CRhCmnUserData_Find none managed_type_id = -1 ∧
    (∀ p, ON_UserData.rhCmn p ∈ obj.m_userdata_list → p.m_userdata_uuid = managed_type_id →
      CRhCmnUserData_Find (some obj) managed_type_id = p.m_serial_number) ∧
    ((∀ ud ∈ obj.m_userdata_list, ud.m_userdata_uuid ≠ managed_type_id) →
      CRhCmnUserData_Find (some obj) managed_type_id = -1) ∧
    (ON_UserData.foreign managed_type_id ∈ obj.m_userdata_list →
      CRhCmnUserData_Find (some obj) managed_type_id = -1) := by
  refine ⟨rfl, ?_, ?_, ?_⟩
  · intro p hmem hp
    have hget := GetUserData_of_mem obj managed_type_id hunique (ON_UserData.rhCmn p) hmem hp
    simp [CRhCmnUserData_Find, hget]
  · intro hnone
    have hget : obj.GetUserData managed_type_id = none := by
      unfold ON_Object.GetUserData
      rw [List.find?_eq_none]
      intro ud hmem
      simpa using hnone ud hmem
    simp [CRhCmnUserData_Find, hget]
  · intro hmem
    have hget := GetUserData_of_mem obj managed_type_id hunique
      (ON_UserData.foreign managed_type_id) hmem rfl
    simp [CRhCmnUserData_Find, hget]

/-- Witness for `Find_returns_handle_or_minus_one`: the object with proxy 5
under type id 7 and other user data under id 11. -/
theorem Find_returns_handle_or_minus_one_witness :
    (objectTwoItems.m_userdata_list.map ON_UserData.m_userdata_uuid).Nodup ∧
    CRhCmnUserData_Find none 7 = -1 ∧
    (∀ p, ON_UserData.rhCmn p ∈ objectTwoItems.m_userdata_list → p.m_userdata_uuid = 7 →
      CRhCmnUserData_Find (some objectTwoItems) 7 = p.m_serial_number) ∧
    ((∀ ud ∈ objectTwoItems.m_userdata_list, ud.m_userdata_uuid ≠ 7) →
      CRhCmnUserData_Find (some objectTwoItems) 7 = -1) ∧
    (ON_UserData.foreign 7 ∈ objectTwoItems.m_userdata_list →
      CRhCmnUserData_Find (some objectTwoItems) 7 = -1) :=
  ⟨by decide, Find_returns_handle_or_minus_one objectTwoItems 7 (by decide)⟩

/-- On the list `holdersTwoSame` the loop takes out the first piece, moves on
one index after `Remove(i)` and so never visits the second piece. -/
theorem MoveUserDataTo_skips_neighbour :
    (ON_UserDataHolder_MoveUserDataTo holdersTwoSame 4 (some objectNoItems) true).m_all_holders
      = [{ m_pHolder := some { m_userdata_list := [ON_UserData.foreign 13] }, m_id := 4 }] ∧
    (ON_UserDataHolder_MoveUserDataTo holdersTwoSame 4 (some objectNoItems) true).object
      = some { asRhCmnUserData := none, m_userdata_list := [ON_UserData.foreign 12] } := by
  simp [ON_UserDataHolder_MoveUserDataTo, MoveUserDataTo_loop, ON_UuidIsNotNil, ON_nil_uuid,
    holdersTwoSame, objectNoItems, ON_UserDataHolder.MoveUserDataTo]

/-- The list `holdersTwoSame` is no state of `m_all_holders`: it holds id 4
twice. -/
theorem holdersTwoSame_not_reachable : ¬ HoldersReachable holdersTwoSame := by
  intro hreach
  have hcount := (reachable_holders_invariant holdersTwoSame hreach).1 4
  revert hcount
  decide

/-- C19: with a duplicate callback installed, when it returns a handle below 1
and the delete slot is set, `DuplicateObject` makes the duplicate call and
then exactly one delete call, with the serial number `-1` of the discarded
proxy; when the duplicate callback returns a handle of at least 1, no delete
call is made. -/
theorem DuplicateObject_delete_calls (cb : Callbacks) (self : CRhCmnUserData)
    (duplicate : Int → CRhCmnUserData → Int) (hdup : cb.m_duplicate = some duplicate) :
    (duplicate self.m_serial_number
        (CRhCmnUserData.new (-1) self.m_userdata_uuid self.m_application_uuid
          self.m_description) < 1 →
      cb.m_delete.isSome = true →
      (self.DuplicateObject cb).calls
        = [Call.duplicate self.m_serial_number
            (CRhCmnUserData.new (-1) self.m_userdata_uuid self.m_application_uuid
              self.m_description),
           Call.delete (-1)] ∧
      (self.DuplicateObject cb).calls.count (Call.delete (-1)) = 1 ∧
      ∀ n, Call.delete n ∈ (self.DuplicateObject cb).calls → n = -1) ∧
    (1 ≤ duplicate self.m_serial_number
        (CRhCmnUserData.new (-1) self.m_userdata_uuid self.m_application_uuid
          self.m_description) →
      (self.DuplicateObject cb).result.isSome = true ∧
      ∀ n, Call.delete n ∉ (self.DuplicateObject cb).calls) := by
  constructor
  · intro hlt hdel
    cases hd : cb.m_delete with
    | none => simp [hd] at hdel
    | some f =>
        have hcalls : (self.DuplicateObject cb).calls
            = [Call.duplicate self.m_serial_number
                (CRhCmnUserData.new (-1) self.m_userdata_uuid self.m_application_uuid
                  self.m_description),
               Call.delete (-1)] := by
          simp only [CRhCmnUserData.DuplicateObject, hdup, CRhCmnUserData.ManagedTypeId,
            CRhCmnUserData.PlugInId, hlt, if_true, CRhCmnUserData.destructor, hd]
          rfl
        rw [hcalls]
        refine ⟨rfl, ?_, ?_⟩
        · simp [List.count_cons]
        · intro n hn
          simpa using hn
  · intro hge
    have hnot : ¬ duplicate self.m_serial_number
        (CRhCmnUserData.new (-1) self.m_userdata_uuid self.m_application_uuid
          self.m_description) < 1 := by omega
    constructor
    · simp [CRhCmnUserData.DuplicateObject, hdup, hnot, CRhCmnUserData.ManagedTypeId,
        CRhCmnUserData.PlugInId]
    · intro n hn
      simp [CRhCmnUserData.DuplicateObject, hdup, hnot, CRhCmnUserData.ManagedTypeId,
        CRhCmnUserData.PlugInId] at hn

/-- Witness for `DuplicateObject_delete_calls`: the duplicate callback returns
`-5` and the delete slot is set. -/
theorem DuplicateObject_delete_calls_witness :
    (proxyFive.DuplicateObject refusingCallbacks).calls
      = [Call.duplicate 5 (CRhCmnUserData.new (-1) 7 9 "five"), Call.delete (-1)] ∧
    (proxyFive.DuplicateObject refusingCallbacks).calls.count (Call.delete (-1)) = 1 ∧
    ∀ n, Call.delete n ∈ (proxyFive.DuplicateObject refusingCallbacks).calls → n = -1 :=
  (DuplicateObject_delete_calls refusingCallbacks proxyFive (fun _ _ => -5) rfl).1
    (by decide) rfl

/-- The only object `CopyRhCmnUserData` can write is the one at the address
`dst`: every other address of the store is left as it is. -/
theorem CopyRhCmnUserData_at_frame (cb : Callbacks) (store : Nat → Option ON_Object)
    (src dst : Option Nat) (a : Nat) (hdst : dst ≠ some a) :
    (CopyRhCmnUserData_at cb store src dst).store a = store a := by
  cases dst with
  | none => simp [CopyRhCmnUserData_at]
  | some b =>
      have hne : ¬ a = b := fun h => hdst (by rw [h])
      unfold CopyRhCmnUserData_at
      split
      · rename_i b2 d s heq _ _
        split
        · rfl
        · split
          · rfl
          · split
            · have hb2 : b = b2 := Option.some.inj heq
              have hne2 : ¬ a = b2 := by rw [← hb2]; exact hne
              simp only [hne2, if_false]
            · rfl
      · rfl

/-- With `src` and `dst` at two different addresses, `CopyRhCmnUserData_at` does
what `CopyRhCmnUserData` does with the two objects. -/
theorem CopyRhCmnUserData_at_distinct (cb : Callbacks) (store : Nat → Option ON_Object)
    (a b : Nat) (hab : a ≠ b) :
    (CopyRhCmnUserData_at cb store (some a) (some b)).result
      = (CopyRhCmnUserData cb (store a) (store b)).result ∧
    (CopyRhCmnUserData_at cb store (some a) (some b)).calls
      = (CopyRhCmnUserData cb (store a) (store b)).calls ∧
    (CopyRhCmnUserData_at cb store (some a) (some b)).store b
      = (CopyRhCmnUserData cb (store a) (store b)).dst ∧
    (CopyRhCmnUserData_at cb store (some a) (some b)).store a
      = (CopyRhCmnUserData cb (store a) (store b)).src := by
  have hsrc : (CopyRhCmnUserData_at cb store (some a) (some b)).store a = store a :=
    CopyRhCmnUserData_at_frame cb store (some a) (some b) a
      (fun h => hab (Option.some.inj h).symm)
  rw [hsrc, CopyRhCmnUserData_src]
  refine ⟨?_, ?_, ?_, rfl⟩
  all_goals
    cases hb : store b with
    | none => simp [CopyRhCmnUserData_at, CopyRhCmnUserData, deref, hb, dynamic_cast]
    | some o =>
        cases hd : dynamic_cast (some o) with
        | none => simp only [CopyRhCmnUserData_at, CopyRhCmnUserData, deref, hb, hd]
        | some d =>
            cases hs : dynamic_cast (store a) with
            | none => simp only [CopyRhCmnUserData_at, CopyRhCmnUserData, deref, hb, hd, hs]
            | some s =>
                simp only [CopyRhCmnUserData_at, CopyRhCmnUserData, deref, hb, hd, hs]
                split
                · first | rfl | simp [hb]
                · split
                  · first | rfl | simp [hb]
                  · split
                    · simp [hb]
                    · first | rfl | simp [hb]

/-- C20, as stated, fails when `src` and `dst` are one and the same proxy: with
all callbacks set, copying the unbound proxy (serial number `-1`) at address
0 onto itself returns true and changes its serial number to the `99` that
the duplicate callback returned, so the source is not left as it was. -/
theorem CopyRhCmnUserData_onto_itself_writes_source :
    (CopyRhCmnUserData_at allCallbacks storeUnbound (some 0) (some 0)).result = true ∧
    deref (CopyRhCmnUserData_at allCallbacks storeUnbound (some 0) (some 0)).store (some 0)
      = some { asRhCmnUserData := some { proxyUnbound with m_serial_number := 99 }
               m_userdata_list := [] } ∧
    deref (CopyRhCmnUserData_at allCallbacks storeUnbound (some 0) (some 0)).store (some 0)
      ≠ deref storeUnbound (some 0) := by
  decide

/-- C20, amended: when the plug-in ids and type ids agree and the proxy behind
`dst` already has a serial number of at least 1, `CopyRhCmnUserData` returns
true, makes no call and leaves every object as it is, also when `src` and
`dst` are the same proxy; and in every copy whose `dst` is another pointer
than `src`, what `src` points to is left as it is, as is every object but
the one behind `dst`. -/
theorem CopyRhCmnUserData_at_bound_dst (cb : Callbacks) (store : Nat → Option ON_Object)
    (src dst : Option Nat) (s d : CRhCmnUserData)
    (hs : dynamic_cast (deref store src) = some s)
    (hd : dynamic_cast (deref store dst) = some d)
    (hplugin : s.m_application_uuid = d.m_application_uuid)
    (htype : s.m_userdata_uuid = d.m_userdata_uuid)
    (hbound : 1 ≤ d.m_serial_number) :
    (CopyRhCmnUserData_at cb store src dst).result = true ∧
    (CopyRhCmnUserData_at cb store src dst).calls = [] ∧
    (CopyRhCmnUserData_at cb store src dst).store = store ∧
    (∀ (cb2 : Callbacks) (store2 : Nat → Option ON_Object) (src2 dst2 : Option Nat),
      src2 ≠ dst2 →
      deref (CopyRhCmnUserData_at cb2 store2 src2 dst2).store src2 = deref store2 src2) ∧
    (∀ (cb2 : Callbacks) (store2 : Nat → Option ON_Object) (src2 dst2 : Option Nat) (a : Nat),
      dst2 ≠ some a → (CopyRhCmnUserData_at cb2 store2 src2 dst2).store a = store2 a) := by
  have hnot : ¬ d.m_serial_number < 1 := by omega
  have hcall : (CopyRhCmnUserData_at cb store src dst).result = true ∧
      (CopyRhCmnUserData_at cb store src dst).calls = [] ∧
      (CopyRhCmnUserData_at cb store src dst).store = store := by
    cases dst with
    | none => simp [deref, dynamic_cast] at hd
    | some b =>
        simp [CopyRhCmnUserData_at, hd, hs, CRhCmnUserData.PlugInId,
          CRhCmnUserData.ManagedTypeId, hplugin, htype, hnot]
  refine ⟨hcall.1, hcall.2.1, hcall.2.2, ?_, ?_⟩
  · intro cb2 store2 src2 dst2 hne
    cases src2 with
    | none => rfl
    | some a =>
        exact CopyRhCmnUserData_at_frame cb2 store2 (some a) dst2 a (fun h => hne h.symm)
  · intro cb2 store2 src2 dst2 a hne
    exact CopyRhCmnUserData_at_frame cb2 store2 src2 dst2 a hne

/-- Witness for `CopyRhCmnUserData_at_bound_dst`: proxy 5 at address 0 copied
onto proxy 8 at address 1, of the same type and plug-in, with all six
callbacks set. -/
theorem CopyRhCmnUserData_at_bound_dst_witness :
    (dynamic_cast (deref storeFiveEight (some 0)) = some proxyFive ∧
      dynamic_cast (deref storeFiveEight (some 1)) = some proxyEight ∧
      (1 : Int) ≤ proxyEight.m_serial_number) ∧
    (CopyRhCmnUserData_at allCallbacks storeFiveEight (some 0) (some 1)).result = true ∧
    (CopyRhCmnUserData_at allCallbacks storeFiveEight (some 0) (some 1)).calls = [] ∧
    (CopyRhCmnUserData_at allCallbacks storeFiveEight (some 0) (some 1)).store
      = storeFiveEight ∧
    (∀ (cb2 : Callbacks) (store2 : Nat → Option ON_Object) (src2 dst2 : Option Nat),
      src2 ≠ dst2 →
      deref (CopyRhCmnUserData_at cb2 store2 src2 dst2).store src2 = deref store2 src2) ∧
    (∀ (cb2 : Callbacks) (store2 : Nat → Option ON_Object) (src2 dst2 : Option Nat) (a : Nat),
      dst2 ≠ some a → (CopyRhCmnUserData_at cb2 store2 src2 dst2).store a = store2 a) :=
  ⟨⟨by decide, by decide, by decide⟩,
    CopyRhCmnUserData_at_bound_dst allCallbacks storeFiveEight (some 0) (some 1)
      proxyFive proxyEight (by decide) (by decide) rfl rfl (by decide)⟩

end RhCmn
